import Mathlib

/-!
# reporter.hpp: a shallow embedding

`reporter<T>` (with the default `T = std::size_t`) is embedded as a sequential
state machine.  The program state holds the static members `_counter` and
`_mutex`, the free store (the cells obtained with `new`), the live `reporter`
objects and the contents of the output streams.  Every member function is a
computation in a state-and-fault monad whose statements follow the statements
of the C++ body one by one.

Conventions
* pointers are natural numbers, `0` is `nullptr`;
* objects and streams are named by natural numbers, stream `0` is `std::clog`;
* `std::size_t` is 64 bits wide, `unsigned short` 16 bits wide;
* dereferencing a null or dangling pointer, using an object outside its
  lifetime and locking a mutex that is already held do not return: they are
  faults, reported together with the state in which they occurred;
* the cell that `new` hands out is an input of the operation (`0`: it throws
  `std::bad_alloc`).
-/

namespace ReporterModel

/-! ## Data model -/

/-- Modulus of `std::size_t` (`reporter::size_type`). -/
def sizeMod : Nat := 2 ^ 64

/-- Modulus of `unsigned short int`, the type of the fields printed with `%05hu`. -/
def ushortMod : Nat := 65536

/-- The non-static data members of one `reporter` object. -/
structure Reporter where
  /-- The member `std::ostream& _stream`, as the name of the stream. -/
  _stream : Nat
  /-- The member `size_type _id`. -/
  _id : Nat
  /-- The member `pointer _ptr`, with `0` for `nullptr`. -/
  _ptr : Nat
  deriving DecidableEq, Repr

/-- One line written by `_log`: the five arguments handed to `std::snprintf`
(after their conversion to the types of the local variables) and the text. -/
structure Line where
  hash : Nat
  thread : Nat
  id : Nat
  ptr : Nat
  value : Nat
  text : String
  deriving DecidableEq, Repr

/-- What `_log` reads from its surroundings: `typeid(T).hash_code()` and
`std::hash<std::thread::id>()(std::this_thread::get_id())`. -/
structure Env where
  typeHash : Nat
  threadHash : Nat
  deriving DecidableEq, Repr

/-- The program state. -/
structure State where
  /-- The static member `_counter`. -/
  counter : Nat
  /-- The static member `_mutex`: `true` while it is held. -/
  locked : Bool
  /-- The free store: the value of every allocated cell. -/
  heap : Nat → Option Nat
  /-- The objects within their lifetime. -/
  objs : Nat → Option Reporter
  /-- The lines written to every stream, oldest first. -/
  streams : Nat → List Line

/-- The state at program start: `_counter = 0`, the mutex free, nothing allocated,
no object, nothing written. -/
def State.init : State :=
  { counter := 0, locked := false, heap := fun _ => none, objs := fun _ => none,
    streams := fun _ => [] }

/-- The ways in which an operation does not return normally. -/
inductive Fault where
  /-- Dereference of `nullptr`. -/
  | nullDeref
  /-- Access to a cell that is not allocated. -/
  | danglingDeref
  /-- The exception `std::bad_alloc` thrown by `new`. -/
  | badAlloc
  /-- The mutex is already held: `lock()` does not return. -/
  | deadlock
  /-- Use of an object outside its lifetime. -/
  | notAlive
  /-- Construction of an object in storage that holds a live object. -/
  | occupied
  deriving DecidableEq, Repr

/-- Result of running a computation: a value and the new state, or a fault and
the state in which it occurred. -/
inductive Res (α : Type) where
  | ok (a : α) (s : State)
  | fault (f : Fault) (s : State)

/-- Computations over the program state. -/
def M (α : Type) : Type := State → Res α

instance : Monad M where
  pure a := fun s => Res.ok a s
  bind m f := fun s =>
    match m s with
    | Res.ok a s1 => f a s1
    | Res.fault e s1 => Res.fault e s1

/-- The state a result carries. -/
def Res.state {α : Type} : Res α → State
  | Res.ok _ s => s
  | Res.fault _ s => s

/-- Whether a result is a normal return. -/
def Res.isOk {α : Type} : Res α → Bool
  | Res.ok _ _ => true
  | Res.fault _ _ => false

/-- Computations that also keep the state after every statement they execute. -/
def TM (α : Type) : Type := State → Res α × List State

instance : Monad TM where
  pure a := fun s => (Res.ok a s, [])
  bind m f := fun s =>
    match m s with
    | (Res.ok a s1, tr) => ((f a s1).1, tr ++ (f a s1).2)
    | (Res.fault e s1, tr) => (Res.fault e s1, tr)

/-- One statement: it is executed, and the state it leaves on return is kept. -/
def stmt {α : Type} (m : M α) : TM α := fun s =>
  match m s with
  | Res.ok a s1 => (Res.ok a s1, [s1])
  | Res.fault e s1 => (Res.fault e s1, [])

/-- The evaluation of an expression inside a statement: no state is kept. -/
def expr {α : Type} (m : M α) : TM α := fun s => (m s, [])

/-! ## Statements -/

/-- The call `_mutex.lock()`. -/
def mutexLock : M Unit := fun s =>
  if s.locked then Res.fault Fault.deadlock s else Res.ok () { s with locked := true }

/-- The call `_mutex.unlock()`. -/
def mutexUnlock : M Unit := fun s => Res.ok () { s with locked := false }

/-- The expression `++_counter` on a `std::size_t`. -/
def preIncCounter : M Nat := fun s =>
  Res.ok ((s.counter + 1) % sizeMod) { s with counter := (s.counter + 1) % sizeMod }

/-- Start of the lifetime of object `h` with the values of its member initialisers;
the storage named `h` must not hold an object already. -/
def construct (h : Nat) (r : Reporter) : M Unit := fun s =>
  match s.objs h with
  | some _ => Res.fault Fault.occupied s
  | none => Res.ok () { s with objs := Function.update s.objs h (some r) }

/-- End of the lifetime of object `h`. -/
def endLifetime (h : Nat) : M Unit := fun s =>
  Res.ok () { s with objs := Function.update s.objs h none }

/-- Read the members of object `h`. -/
def getObj (h : Nat) : M Reporter := fun s =>
  match s.objs h with
  | some r => Res.ok r s
  | none => Res.fault Fault.notAlive s

/-- The assignment `_id = v` in object `h`. -/
def setId (h : Nat) (v : Nat) : M Unit := fun s =>
  match s.objs h with
  | some r => Res.ok () { s with objs := Function.update s.objs h (some { r with _id := v }) }
  | none => Res.fault Fault.notAlive s

/-- The assignment `_ptr = p` in object `h`. -/
def setPtr (h : Nat) (p : Nat) : M Unit := fun s =>
  match s.objs h with
  | some r => Res.ok () { s with objs := Function.update s.objs h (some { r with _ptr := p }) }
  | none => Res.fault Fault.notAlive s

/-- The expression `*p` read as a value. -/
def load (p : Nat) : M Nat := fun s =>
  if p = 0 then Res.fault Fault.nullDeref s
  else match s.heap p with
    | some v => Res.ok v s
    | none => Res.fault Fault.danglingDeref s

/-- The assignment `*p = v`. -/
def store (p : Nat) (v : Nat) : M Unit := fun s =>
  if p = 0 then Res.fault Fault.nullDeref s
  else match s.heap p with
    | some _ => Res.ok () { s with heap := Function.update s.heap p (some v) }
    | none => Res.fault Fault.danglingDeref s

/-- The expression `new value_type(v)` for a `v` that is already evaluated; `a` is
the cell the allocation function hands out, `0` when it throws
`std::bad_alloc` instead. -/
def opNew (a : Nat) (v : Nat) : M Nat := fun s =>
  if a = 0 then Res.fault Fault.badAlloc s
  else Res.ok a { s with heap := Function.update s.heap a (some v) }

/-- The allocation function `operator new`, which a new-expression calls before it
evaluates the initialiser: `a` is the cell it hands out, `0` when it throws
`std::bad_alloc` instead.  The cell is allocated and holds no value yet: it is
recorded with whatever the heap had at that place, 0 for a free cell, which is
what a read through a dangling pointer to that very cell then yields. -/
def opAlloc (a : Nat) : M Nat := fun s =>
  if a = 0 then Res.fault Fault.badAlloc s
  else Res.ok a { s with heap := Function.update s.heap a (some ((s.heap a).getD 0)) }

/-- The construction of `value_type(v)` in the cell `p` that `operator new` handed out. -/
def opInit (p : Nat) (v : Nat) : M Unit := fun s =>
  Res.ok () { s with heap := Function.update s.heap p (some v) }

/-- The statement `delete p` for a non-null `p`. -/
def opDelete (p : Nat) : M Unit := fun s =>
  match s.heap p with
  | some _ => Res.ok () { s with heap := Function.update s.heap p none }
  | none => Res.fault Fault.danglingDeref s

/-- The insertion `stream << buffer << text << std::endl`. -/
def write (stream : Nat) (l : Line) : M Unit := fun s =>
  Res.ok () { s with streams := Function.update s.streams stream (s.streams stream ++ [l]) }

/-- A constructor that exits with a fault never starts the lifetime of its object. -/
def abandonOnFault (h : Nat) (m : M Unit) : M Unit := fun s =>
  match m s with
  | Res.ok u s1 => Res.ok u s1
  | Res.fault e s1 => Res.fault e { s1 with objs := Function.update s1.objs h none }

/-! ## `reporter::_log` -/

/-- The function `reporter::_log(self, text)`: `hash`, `thread`, `id` and `value` are
`unsigned short int`, so what is assigned to them is reduced modulo 65536;
`ptr` is the address as an `unsigned long long int`, which holds every
`std::uintptr_t`; `value` is `link ? *link : 0`.  The line is kept as the
arguments of `std::snprintf` together with the text; `Line.render` gives its
characters. -/
def _log (env : Env) (self : Nat) (text : String) : M Unit := do
  let me ← getObj self
  let hash := env.typeHash % ushortMod
  let thread := env.threadHash % ushortMod
  let id := me._id % ushortMod
  let link := me._ptr
  let ptr := link
  let v ← (if link ≠ 0 then load link else pure 0)
  let value := v % ushortMod
  write me._stream { hash := hash, thread := thread, id := id, ptr := ptr, value := value, text := text }

/-! ## Lifecycle -/

/-- The constructor `reporter::reporter()`, for the object `h`. -/
def ctorDefault (env : Env) (h : Nat) (a : Nat) : M Unit := do
  construct h { _stream := 0, _id := 0, _ptr := 0 }
  abandonOnFault h do
    mutexLock
    let c ← preIncCounter
    setId h c
    let p ← opNew a c
    setPtr h p
    _log env h "reporter::reporter()"
    mutexUnlock

/-- The constructor `reporter::reporter(std::ostream& stream)`, for the object `h`. -/
def ctorStream (env : Env) (h : Nat) (stream : Nat) (a : Nat) : M Unit := do
  construct h { _stream := stream, _id := 0, _ptr := 0 }
  abandonOnFault h do
    mutexLock
    let c ← preIncCounter
    setId h c
    let p ← opNew a c
    setPtr h p
    _log env h "reporter::reporter(std::ostream&)"
    mutexUnlock

/-- The constructor `reporter::reporter(const reporter& other)`, for the object `h`.
In `new value_type(*other._ptr)` the allocation function is called first, then
`*other._ptr` is evaluated, then the value is constructed in the cell. -/
def ctorCopy (env : Env) (h : Nat) (other : Nat) (a : Nat) : M Unit := do
  let o ← getObj other
  construct h { _stream := o._stream, _id := 0, _ptr := 0 }
  abandonOnFault h do
    mutexLock
    let c ← preIncCounter
    setId h c
    let p ← opAlloc a
    let src ← getObj other
    let v ← load src._ptr
    opInit p v
    setPtr h p
    _log env h "reporter::reporter(const reporter&)"
    mutexUnlock

/-- The constructor `reporter::reporter(reporter&& other)`, for the object `h`. -/
def ctorMove (env : Env) (h : Nat) (other : Nat) : M Unit := do
  let o ← getObj other
  construct h { _stream := o._stream, _id := 0, _ptr := 0 }
  abandonOnFault h do
    mutexLock
    let c ← preIncCounter
    setId h c
    let src ← getObj other
    setPtr h src._ptr
    setPtr other 0
    _log env h "reporter::reporter(reporter&&)"
    mutexUnlock

/-- The destructor `reporter::~reporter()` of the object `h`, statement by
statement, followed by the end of the lifetime of the object; the state after
each statement is kept. -/
def dtorTrace (env : Env) (h : Nat) : TM Unit := do
  stmt mutexLock
  stmt (_log env h "reporter::~reporter()")
  let me ← expr (getObj h)
  if me._ptr ≠ 0 then
    stmt (store me._ptr 0)
    stmt (opDelete me._ptr)
    stmt (setPtr h 0)
  stmt mutexUnlock
  stmt (endLifetime h)

/-- The destructor `reporter::~reporter()` of the object `h`, followed by the end of
its lifetime: the result of `dtorTrace`. -/
def dtor (env : Env) (h : Nat) : M Unit := fun s => (dtorTrace env h s).1

/-! ## Assignment -/

/-- The operator `reporter::operator=(const reporter& other)` on the object `h`. -/
def assignCopy (env : Env) (h : Nat) (other : Nat) : M Unit := do
  mutexLock
  let me ← getObj h
  let src ← getObj other
  let v ← load src._ptr
  store me._ptr v
  _log env h "reporter& reporter::operator=(const reporter&)"
  mutexUnlock

/-- The operator `reporter::operator=(reporter&& other)` on the object `h`. -/
def assignMove (env : Env) (h : Nat) (other : Nat) : M Unit := do
  mutexLock
  let me ← getObj h
  let src ← getObj other
  let v ← load src._ptr
  store me._ptr v
  setPtr other 0
  _log env h "reporter& reporter::operator=(reporter&&)"
  mutexUnlock

/-! ## Function call operators -/

/-- The twelve overloads of `reporter::operator()`; the four templates carry
their argument list. -/
inductive Call where
  | args (xs : List Nat)
  | argsConst (xs : List Nat)
  | argsVolatile (xs : List Nat)
  | argsConstVolatile (xs : List Nat)
  | lref
  | constLref
  | volatileLref
  | constVolatileLref
  | rref
  | constRref
  | volatileRref
  | constVolatileRref
  deriving DecidableEq, Repr

/-- The text each overload of `operator()` hands to `_log`. -/
def Call.text : Call → String
  | Call.args _ => "void reporter::operator()(Args&&...)"
  | Call.argsConst _ => "void reporter::operator()(Args&&...) const"
  | Call.argsVolatile _ => "void reporter::operator()(Args&&...) volatile"
  | Call.argsConstVolatile _ => "void reporter::operator()(Args&&...) const volatile"
  | Call.lref => "void reporter::operator()() &"
  | Call.constLref => "void reporter::operator()() const&"
  | Call.volatileLref => "void reporter::operator()() volatile&"
  | Call.constVolatileLref => "void reporter::operator()() const volatile&"
  | Call.rref => "void reporter::operator()() &&"
  | Call.constRref => "void reporter::operator()() const&&"
  | Call.volatileRref => "void reporter::operator()() volatile&&"
  | Call.constVolatileRref => "void reporter::operator()() const volatile&&"

/-- The operator `reporter::operator()` in the overload `c`, on the object `h`. -/
def invoke (env : Env) (h : Nat) (c : Call) : M Unit := do
  mutexLock
  _log env h c.text
  mutexUnlock

/-! ## Programs: sequences of public operations -/

/-- The public operations. -/
inductive Op where
  | ctorDefault (h : Nat) (a : Nat)
  | ctorStream (h : Nat) (stream : Nat) (a : Nat)
  | ctorCopy (h : Nat) (other : Nat) (a : Nat)
  | ctorMove (h : Nat) (other : Nat)
  | dtor (h : Nat)
  | assignCopy (h : Nat) (other : Nat)
  | assignMove (h : Nat) (other : Nat)
  | invoke (h : Nat) (c : Call)
  deriving DecidableEq, Repr

/-- Execute one public operation. -/
def exec (env : Env) : Op → M Unit
  | Op.ctorDefault h a => ctorDefault env h a
  | Op.ctorStream h stream a => ctorStream env h stream a
  | Op.ctorCopy h other a => ctorCopy env h other a
  | Op.ctorMove h other => ctorMove env h other
  | Op.dtor h => dtor env h
  | Op.assignCopy h other => assignCopy env h other
  | Op.assignMove h other => assignMove env h other
  | Op.invoke h c => invoke env h c

/-- Execute a sequence of public operations, stopping at the first fault. -/
def run (env : Env) : List Op → M Unit
  | [] => pure ()
  | op :: ops => do
    exec env op
    run env ops

/-- The driver `main` of reporter.cpp, with the objects `r1`..`r5` named 1..5 and
the cells handed out by `new` as inputs. -/
def mainOps (a1 a2 a3 a5 : Nat) : List Op :=
  [ Op.ctorDefault 1 a1, Op.ctorCopy 2 1 a2, Op.ctorCopy 3 2 a3,
    Op.ctorMove 4 1, Op.ctorDefault 5 a5,
    Op.invoke 1 Call.lref, Op.invoke 2 Call.lref, Op.invoke 3 Call.lref,
    Op.invoke 4 Call.lref, Op.invoke 5 Call.lref,
    Op.dtor 5, Op.dtor 4, Op.dtor 3, Op.dtor 2, Op.dtor 1 ]

/-! ## Vocabulary of the statements -/

/-- The line `_log` writes for an object whose members are `_id = id` and
`_ptr = ptr`, when `link ? *link : 0` evaluates to `v`. -/
def lineOf (env : Env) (id ptr v : Nat) (text : String) : Line :=
  { hash := env.typeHash % ushortMod, thread := env.threadHash % ushortMod,
    id := id % ushortMod, ptr := ptr, value := v % ushortMod, text := text }

/-- The value of `link ? *link : 0` for `link = p` (`0` also for a cell that is
not allocated, where the C++ expression has no value). -/
def peek (s : State) (p : Nat) : Nat :=
  if p = 0 then 0 else (s.heap p).getD 0

/-- The pointer `p` is null or points to an allocated cell. -/
def Readable (s : State) (p : Nat) : Prop :=
  p = 0 ∨ ∃ v, s.heap p = some v

/-- The state `s` after one more line on `stream`. -/
def State.emit (s : State) (stream : Nat) (l : Line) : State :=
  { s with streams := Function.update s.streams stream (s.streams stream ++ [l]) }

/-- Whether the operation is one of the four constructors. -/
def Op.isCtor : Op → Bool
  | Op.ctorDefault _ _ => true
  | Op.ctorStream _ _ _ => true
  | Op.ctorCopy _ _ _ => true
  | Op.ctorMove _ _ => true
  | _ => false

/-- The object an operation acts on (`*this`). -/
def Op.self : Op → Nat
  | Op.ctorDefault h _ => h
  | Op.ctorStream h _ _ => h
  | Op.ctorCopy h _ _ => h
  | Op.ctorMove h _ => h
  | Op.dtor h => h
  | Op.assignCopy h _ => h
  | Op.assignMove h _ => h
  | Op.invoke h _ => h

/-- The cell `new` hands out in an operation that allocates. -/
def Op.cell : Op → Option Nat
  | Op.ctorDefault _ a => some a
  | Op.ctorStream _ _ a => some a
  | Op.ctorCopy _ _ a => some a
  | _ => none

/-- Number of constructions in a sequence of operations. -/
def constructions (ops : List Op) : Nat := (ops.filter Op.isCtor).length

/-- The ids given to the objects constructed while `ops` runs from `s`, in the
order of construction: after each constructor the `_id` of the new object is read. -/
def assignedIds (env : Env) : List Op → State → List Nat
  | [], _ => []
  | op :: ops, s =>
    match exec env op s with
    | Res.ok _ s1 =>
      (if op.isCtor then
        match s1.objs op.self with
        | some r => [r._id]
        | none => []
      else []) ++ assignedIds env ops s1
    | Res.fault _ _ => []

/-- The allocation function hands out a cell that is not allocated at the moment. -/
def FreshAlloc (s : State) (op : Op) : Prop :=
  ∀ a, op.cell = some a → s.heap a = none

/-- The run `Steps env s ops s1`: the operations `ops` executed in order from `s`
all return and end in `s1`, and every cell handed out by `new` is fresh. -/
inductive Steps (env : Env) : State → List Op → State → Prop where
  | nil (s : State) : Steps env s [] s
  | cons {s s1 s2 : State} {op : Op} {ops : List Op} :
      FreshAlloc s op → exec env op s = Res.ok () s1 → Steps env s1 ops s2 →
      Steps env s (op :: ops) s2

/-- The states reachable from the start of the program. -/
def Reachable (env : Env) (s : State) : Prop :=
  ∃ ops, Steps env State.init ops s

/-- Exclusive ownership: between operations the mutex is free, every non-null
`_ptr` of a live object points to an allocated cell, and no two live objects
hold the same non-null `_ptr`. -/
structure Owned (s : State) : Prop where
  unlocked : s.locked = false
  allocated : ∀ h r, s.objs h = some r → r._ptr ≠ 0 → ∃ v, s.heap r._ptr = some v
  exclusive : ∀ h1 h2 r1 r2, s.objs h1 = some r1 → s.objs h2 = some r2 →
    r1._ptr ≠ 0 → r1._ptr = r2._ptr → h1 = h2

/-- The object `h` is live and valid: its `_ptr` points to an allocated cell
holding `v`. -/
def Valid (s : State) (h : Nat) (r : Reporter) (v : Nat) : Prop :=
  s.objs h = some r ∧ r._ptr ≠ 0 ∧ s.heap r._ptr = some v

/-- The object `h` is live and invalidated: its `_ptr` is null. -/
def Invalidated (s : State) (h : Nat) (id : Nat) : Prop :=
  ∃ r, s.objs h = some r ∧ r._ptr = 0 ∧ r._id = id

/-- The cell `c` is allocated, holds `v`, and no live object points to it. -/
def Leaked (s : State) (c v : Nat) : Prop :=
  c ≠ 0 ∧ s.heap c = some v ∧ ∀ h r, s.objs h = some r → r._ptr ≠ c

/-! ## Worked examples -/

/-- The environment of the worked examples. -/
def sampleEnv : Env := { typeHash := 7, threadHash := 9 }

/-- The state after `reporter<> r1;` with the cell 100 handed out by `new`. -/
def sampleState1 : State :=
  { counter := 1, locked := false,
    heap := Function.update (fun _ => none) 100 (some 1),
    objs := Function.update (fun _ => none) 1 (some ⟨0, 1, 100⟩),
    streams := Function.update (fun _ => []) 0 [⟨7, 9, 1, 100, 1, "reporter::reporter()"⟩] }

/-- The state after `reporter<> r1; reporter<> r2;` with the cells 100 and 200. -/
def sampleState : State :=
  { counter := 2, locked := false,
    heap := Function.update sampleState1.heap 200 (some 2),
    objs := Function.update sampleState1.objs 2 (some ⟨0, 2, 200⟩),
    streams := Function.update sampleState1.streams 0
      [⟨7, 9, 1, 100, 1, "reporter::reporter()"⟩, ⟨7, 9, 2, 200, 2, "reporter::reporter()"⟩] }

/-- A state in which 65536 objects have been constructed, of which the first and
the last are alive: object 1 (id 1, value 1 in cell 100) and object 2 (id 65536,
value 65536 in cell 200).  What the streams hold plays no part in the examples
and is left empty; up to that the state is reachable (`wrapState2_reachable`). -/
def wrapState2 : State :=
  { counter := 65536, locked := false,
    heap := Function.update (Function.update (fun _ => none) 100 (some 1)) 200 (some 65536),
    objs := Function.update (Function.update (fun _ => none) 1 (some ⟨0, 1, 100⟩)) 2
      (some ⟨0, 65536, 200⟩),
    streams := fun _ => [] }

/-- The state `sampleState` after `reporter<> r3(std::move(r1));`: object 1 is
invalidated, object 3 owns the cell 100. -/
def movedState : State :=
  { counter := 3, locked := false,
    heap := sampleState.heap,
    objs := Function.update (Function.update sampleState.objs 3 (some ⟨0, 3, 100⟩)) 1
      (some ⟨0, 1, 0⟩),
    streams := Function.update sampleState.streams 0
      (sampleState.streams 0 ++ [⟨7, 9, 3, 100, 1, "reporter::reporter(reporter&&)"⟩]) }

/-- Construct an object in the storage 9 with the cell 900 and destroy it again,
`n` times over. -/
def churn : Nat → List Op
  | 0 => []
  | n + 1 => Op.ctorDefault 9 900 :: Op.dtor 9 :: churn n

/-! ## The characters of a line -/

/-- Modulus of `unsigned long long int`, the type of the argument printed with `%08llX`. -/
def ullongMod : Nat := 2 ^ 64

/-- Zero padding on the left up to the minimum field width (the flag `0`). -/
def leftPad (width : Nat) (cs : List Char) : List Char :=
  List.replicate (width - cs.length) '0' ++ cs

/-- The conversion `%05hu`: the argument as an `unsigned short int`, in decimal, at
least 5 characters wide. -/
def fmt05hu (n : Nat) : List Char :=
  leftPad 5 (Nat.toDigits 10 (n % ushortMod))

/-- The conversion `%08llX`: the argument as an `unsigned long long int`, in
hexadecimal with capital letters, at least 8 characters wide. -/
def fmt08llX (n : Nat) : List Char :=
  leftPad 8 ((Nat.toDigits 16 (n % ullongMod)).map Char.toUpper)

/-- The characters the format `"[%05hu, %05hu, %05hu, 0x%08llX, %05hu]: "` produces
for the arguments `hash, thread, id, ptr, value`. -/
def formatRecord (l : Line) : List Char :=
  ['['] ++ fmt05hu l.hash ++ [',', ' '] ++ fmt05hu l.thread ++ [',', ' '] ++ fmt05hu l.id ++
    [',', ' ', '0', 'x'] ++ fmt08llX l.ptr ++ [',', ' '] ++ fmt05hu l.value ++ [']', ':', ' ']

/-- The constant `size = std::numeric_limits<char>::max()`, the length of `buffer`. -/
def bufferSize : Nat := 127

/-- The characters in `buffer` after `std::snprintf(buffer, size, ...)`: at most
`size - 1` of them, before the terminating null. -/
def Line.buffer (l : Line) : List Char :=
  (formatRecord l).take (bufferSize - 1)

/-- The characters of `_stream << buffer << text << std::endl`. -/
def Line.render (l : Line) : String :=
  String.mk (l.buffer ++ l.text.toList ++ ['\n'])

/-- The number a string of decimal digits denotes. -/
def decValue (cs : List Char) : Nat :=
  cs.foldl (fun acc c => 10 * acc + (c.toNat - 48)) 0

/-- The characters of the hexadecimal digits in capital letters. -/
def hexChars : List Char := "0123456789ABCDEF".toList

/-! ## Vocabulary of the statements about lines -/

/-- The text each public operation hands to `_log`. -/
def Op.text : Op → String
  | Op.ctorDefault _ _ => "reporter::reporter()"
  | Op.ctorStream _ _ _ => "reporter::reporter(std::ostream&)"
  | Op.ctorCopy _ _ _ => "reporter::reporter(const reporter&)"
  | Op.ctorMove _ _ => "reporter::reporter(reporter&&)"
  | Op.dtor _ => "reporter::~reporter()"
  | Op.assignCopy _ _ => "reporter& reporter::operator=(const reporter&)"
  | Op.assignMove _ _ => "reporter& reporter::operator=(reporter&&)"
  | Op.invoke _ c => c.text

/-- Whether the operation is the destructor. -/
def Op.isDtor : Op → Bool
  | Op.dtor _ => true
  | _ => false

/-- The acting object of an operation that took `s` to `s1`, at the moment it
calls `_log`: the destructor logs before it changes anything, every other
operation logs last. -/
def actor (op : Op) (s s1 : State) : Option Reporter :=
  if op.isDtor then s.objs op.self else s1.objs op.self

/-- The state in which an operation that took `s` to `s1` calls `_log`, as far as
the heap goes. -/
def logState (op : Op) (s s1 : State) : State :=
  if op.isDtor then s else s1

/-- The stream an operation writes to, by the kind of the operation: `std::clog`
for the default constructor, the argument for the stream constructor, the
stream of the source for the copy and move constructors, and the stream of
the object itself for every other operation. -/
def Op.stream (s : State) : Op → Option Nat
  | Op.ctorDefault _ _ => some 0
  | Op.ctorStream _ stream _ => some stream
  | Op.ctorCopy _ other _ => (s.objs other).map Reporter._stream
  | Op.ctorMove _ other => (s.objs other).map Reporter._stream
  | Op.dtor h => (s.objs h).map Reporter._stream
  | Op.assignCopy h _ => (s.objs h).map Reporter._stream
  | Op.assignMove h _ => (s.objs h).map Reporter._stream
  | Op.invoke h _ => (s.objs h).map Reporter._stream

/-- The streams written while `ops` runs from `s`, one entry for each operation
that returns: the stream its acting object is bound to. -/
def writtenStreams (env : Env) : List Op → State → List Nat
  | [], _ => []
  | op :: ops, s =>
    match exec env op s with
    | Res.ok _ s1 =>
      (match actor op s s1 with
        | some r => [r._stream]
        | none => []) ++ writtenStreams env ops s1
    | Res.fault _ _ => []

/-- Which of the twelve overloads a call selects, counted in the order of the
declarations. -/
def Call.index : Call → Nat
  | Call.args _ => 0
  | Call.argsConst _ => 1
  | Call.argsVolatile _ => 2
  | Call.argsConstVolatile _ => 3
  | Call.lref => 4
  | Call.constLref => 5
  | Call.volatileLref => 6
  | Call.constVolatileLref => 7
  | Call.rref => 8
  | Call.constRref => 9
  | Call.volatileRref => 10
  | Call.constVolatileRref => 11

/-- Which of the nineteen operations an `Op` is: the seven lifecycle and assignment
operations in the order of the source, then the twelve overloads of
`operator()`. -/
def Op.index : Op → Nat
  | Op.ctorDefault _ _ => 0
  | Op.ctorStream _ _ _ => 1
  | Op.ctorCopy _ _ _ => 2
  | Op.ctorMove _ _ => 3
  | Op.dtor _ => 4
  | Op.assignCopy _ _ => 5
  | Op.assignMove _ _ => 6
  | Op.invoke _ c => 7 + c.index

/-- The nineteen texts handed to `_log`, in the order of the source. -/
def operationTags : List String :=
  [ "reporter::reporter()",
    "reporter::reporter(std::ostream&)",
    "reporter::reporter(const reporter&)",
    "reporter::reporter(reporter&&)",
    "reporter::~reporter()",
    "reporter& reporter::operator=(const reporter&)",
    "reporter& reporter::operator=(reporter&&)",
    "void reporter::operator()(Args&&...)",
    "void reporter::operator()(Args&&...) const",
    "void reporter::operator()(Args&&...) volatile",
    "void reporter::operator()(Args&&...) const volatile",
    "void reporter::operator()() &",
    "void reporter::operator()() const&",
    "void reporter::operator()() volatile&",
    "void reporter::operator()() const volatile&",
    "void reporter::operator()() &&",
    "void reporter::operator()() const&&",
    "void reporter::operator()() volatile&&",
    "void reporter::operator()() const volatile&&" ]

end ReporterModel

/-! ## Symbolic execution of the member functions -/

namespace ReporterModel

theorem bind_apply {α β : Type} (m : M α) (f : α → M β) (s : State) :
    (m >>= f) s = match m s with
      | Res.ok a s1 => f a s1
      | Res.fault e s1 => Res.fault e s1 := rfl

theorem pure_apply {α : Type} (a : α) (s : State) : (pure a : M α) s = Res.ok a s := rfl

theorem tbind_apply {α β : Type} (m : TM α) (f : α → TM β) (s : State) :
    (m >>= f) s = match m s with
      | (Res.ok a s1, tr) => ((f a s1).1, tr ++ (f a s1).2)
      | (Res.fault e s1, tr) => (Res.fault e s1, tr) := rfl

theorem tpure_apply {α : Type} (a : α) (s : State) : (pure a : TM α) s = (Res.ok a s, []) := rfl

/-- When `reporter::reporter()` returns, and the state it returns in. -/
theorem ctorDefault_ok_iff (env : Env) (h a : Nat) (s s' : State) :
    ctorDefault env h a s = Res.ok () s' ↔
      s.locked = false ∧ s.objs h = none ∧ a ≠ 0 ∧
        s' = { counter := (s.counter + 1) % sizeMod, locked := false,
               heap := Function.update s.heap a (some ((s.counter + 1) % sizeMod)),
               objs := Function.update s.objs h (some ⟨0, (s.counter + 1) % sizeMod, a⟩),
               streams := Function.update s.streams 0 (s.streams 0 ++
                 [lineOf env ((s.counter + 1) % sizeMod) a ((s.counter + 1) % sizeMod)
                   "reporter::reporter()"]) } := by
  cases hl : s.locked <;> cases hh : s.objs h <;> by_cases ha : a = 0 <;>
    simp [ctorDefault, bind_apply, pure_apply, getObj, construct, abandonOnFault, mutexLock,
      preIncCounter, setId, setPtr, _log, write, mutexUnlock, load, opNew, hl, hh, ha, lineOf]
  exact eq_comm

/-- When `reporter::reporter(std::ostream&)` returns, and the state it returns in. -/
theorem ctorStream_ok_iff (env : Env) (h stream a : Nat) (s s' : State) :
    ctorStream env h stream a s = Res.ok () s' ↔
      s.locked = false ∧ s.objs h = none ∧ a ≠ 0 ∧
        s' = { counter := (s.counter + 1) % sizeMod, locked := false,
               heap := Function.update s.heap a (some ((s.counter + 1) % sizeMod)),
               objs := Function.update s.objs h (some ⟨stream, (s.counter + 1) % sizeMod, a⟩),
               streams := Function.update s.streams stream (s.streams stream ++
                 [lineOf env ((s.counter + 1) % sizeMod) a ((s.counter + 1) % sizeMod)
                   "reporter::reporter(std::ostream&)"]) } := by
  cases hl : s.locked <;> cases hh : s.objs h <;> by_cases ha : a = 0 <;>
    simp [ctorStream, bind_apply, pure_apply, getObj, construct, abandonOnFault, mutexLock,
      preIncCounter, setId, setPtr, _log, write, mutexUnlock, load, opNew, hl, hh, ha, lineOf]
  exact eq_comm

/-- When `reporter::reporter(const reporter&)` returns, and the state it returns in.
(A source whose pointer dangles at the very cell that `operator new` hands out
reads that cell, as 0.) -/
theorem ctorCopy_ok_iff (env : Env) (h other a : Nat) (s s' : State) :
    ctorCopy env h other a s = Res.ok () s' ↔
      s.locked = false ∧ s.objs h = none ∧ a ≠ 0 ∧
        ∃ A v, s.objs other = some A ∧ A._ptr ≠ 0 ∧
        (s.heap A._ptr = some v ∨ (A._ptr = a ∧ s.heap a = none ∧ v = 0)) ∧
        s' = { counter := (s.counter + 1) % sizeMod, locked := false,
               heap := Function.update s.heap a (some v),
               objs := Function.update s.objs h (some ⟨A._stream, (s.counter + 1) % sizeMod, a⟩),
               streams := Function.update s.streams A._stream (s.streams A._stream ++
                 [lineOf env ((s.counter + 1) % sizeMod) a v
                   "reporter::reporter(const reporter&)"]) } := by
  cases hl : s.locked <;> cases hh : s.objs h <;> cases hA : s.objs other <;>
    by_cases ha : a = 0 <;>
    try (simp [ctorCopy, bind_apply, pure_apply, getObj, construct, abandonOnFault, mutexLock,
      preIncCounter, setId, setPtr, _log, write, mutexUnlock, load, opAlloc, opInit, hl, hh, hA,
      ha]; done)
  rename_i A
  have hne : other ≠ h := by rintro rfl; rw [hh] at hA; cases hA
  by_cases hp : A._ptr = 0 <;> cases hv : s.heap A._ptr <;> by_cases hpa : A._ptr = a <;>
    simp [ctorCopy, bind_apply, pure_apply, getObj, construct, abandonOnFault, mutexLock,
      preIncCounter, setId, setPtr, _log, write, mutexUnlock, load, opAlloc, opInit, hl, hh, hA,
      hne, hne.symm, hp, lineOf, hv, ha, hpa]
  all_goals first
    | exact eq_comm
    | (subst hpa; simp [hv, ha, hp]; try exact eq_comm)

/-- When `reporter::reporter(reporter&&)` returns, and the state it returns in. -/
theorem ctorMove_ok_iff (env : Env) (h other : Nat) (s s' : State) :
    ctorMove env h other s = Res.ok () s' ↔
      s.locked = false ∧ s.objs h = none ∧ ∃ A, s.objs other = some A ∧ Readable s A._ptr ∧
        s' = { counter := (s.counter + 1) % sizeMod, locked := false, heap := s.heap,
               objs := Function.update
                 (Function.update s.objs h (some ⟨A._stream, (s.counter + 1) % sizeMod, A._ptr⟩))
                 other (some ⟨A._stream, A._id, 0⟩),
               streams := Function.update s.streams A._stream (s.streams A._stream ++
                 [lineOf env ((s.counter + 1) % sizeMod) A._ptr (peek s A._ptr)
                   "reporter::reporter(reporter&&)"]) } := by
  cases hl : s.locked <;> cases hh : s.objs h <;> cases hA : s.objs other <;>
    try (simp [ctorMove, bind_apply, pure_apply, getObj, construct, abandonOnFault, mutexLock,
      preIncCounter, setId, setPtr, _log, write, mutexUnlock, load, hl, hh, hA]; done)
  rename_i A
  have hne : other ≠ h := by rintro rfl; rw [hh] at hA; cases hA
  by_cases hp : A._ptr = 0
  · simp [ctorMove, bind_apply, pure_apply, getObj, construct, abandonOnFault, mutexLock,
      preIncCounter, setId, setPtr, _log, write, mutexUnlock, load, hl, hh, hA,
      hne, hne.symm, hp, Readable, peek, lineOf]
    exact eq_comm
  · cases hv : s.heap A._ptr <;>
      simp [ctorMove, bind_apply, pure_apply, getObj, construct, abandonOnFault, mutexLock,
        preIncCounter, setId, setPtr, _log, write, mutexUnlock, load, hl, hh, hA,
        hne, hne.symm, hp, Readable, peek, lineOf, hv]
    exact eq_comm

/-- When `reporter::~reporter()` returns, and the state it returns in. -/
theorem dtor_ok_iff (env : Env) (h : Nat) (s s' : State) :
    dtor env h s = Res.ok () s' ↔
      s.locked = false ∧ ∃ A, s.objs h = some A ∧ Readable s A._ptr ∧
        s' = { counter := s.counter, locked := false,
               heap := if A._ptr = 0 then s.heap else Function.update s.heap A._ptr none,
               objs := Function.update s.objs h none,
               streams := Function.update s.streams A._stream (s.streams A._stream ++
                 [lineOf env A._id A._ptr (peek s A._ptr) "reporter::~reporter()"]) } := by
  cases hl : s.locked <;> cases hA : s.objs h <;>
    try (simp [dtor, dtorTrace, stmt, expr, tbind_apply, tpure_apply, bind_apply, pure_apply,
      getObj, mutexLock, _log, write, mutexUnlock, load, endLifetime, hl, hA]; done)
  rename_i A
  by_cases hp : A._ptr = 0
  · simp [dtor, dtorTrace, stmt, expr, tbind_apply, tpure_apply, bind_apply, pure_apply, getObj,
      mutexLock, _log, write, mutexUnlock, load, endLifetime, store, opDelete, setPtr, hl, hA, hp,
      Readable, peek, lineOf]
    exact eq_comm
  · cases hv : s.heap A._ptr <;>
      simp [dtor, dtorTrace, stmt, expr, tbind_apply, tpure_apply, bind_apply, pure_apply, getObj,
        mutexLock, _log, write, mutexUnlock, load, endLifetime, store, opDelete, setPtr, hl, hA,
        hp, Readable, peek, lineOf, hv]
    exact eq_comm

/-- When `reporter::operator=(const reporter&)` returns, and the state it returns in. -/
theorem assignCopy_ok_iff (env : Env) (h other : Nat) (s s' : State) :
    assignCopy env h other s = Res.ok () s' ↔
      s.locked = false ∧ ∃ A B v, s.objs h = some A ∧ s.objs other = some B ∧
        B._ptr ≠ 0 ∧ s.heap B._ptr = some v ∧ A._ptr ≠ 0 ∧ (∃ w, s.heap A._ptr = some w) ∧
        s' = { counter := s.counter, locked := false,
               heap := Function.update s.heap A._ptr (some v),
               objs := s.objs,
               streams := Function.update s.streams A._stream (s.streams A._stream ++
                 [lineOf env A._id A._ptr v
                   "reporter& reporter::operator=(const reporter&)"]) } := by
  cases hl : s.locked <;> cases hA : s.objs h <;> cases hB : s.objs other <;>
    try (simp [assignCopy, bind_apply, pure_apply, getObj, mutexLock, _log, write, mutexUnlock,
      load, store, hl, hA, hB]; done)
  rename_i A B
  by_cases hq : B._ptr = 0 <;> cases hv : s.heap B._ptr <;> by_cases hp : A._ptr = 0 <;>
    cases hw : s.heap A._ptr <;>
    simp [assignCopy, bind_apply, pure_apply, getObj, mutexLock, _log, write, mutexUnlock,
      load, store, hl, hA, hB, hq, hv, hp, hw, lineOf]
  exact eq_comm

/-- When `reporter::operator=(reporter&&)` returns, and the state it returns in. -/
theorem assignMove_ok_iff (env : Env) (h other : Nat) (s s' : State) :
    assignMove env h other s = Res.ok () s' ↔
      s.locked = false ∧ ∃ A B v, s.objs h = some A ∧ s.objs other = some B ∧
        B._ptr ≠ 0 ∧ s.heap B._ptr = some v ∧ A._ptr ≠ 0 ∧ (∃ w, s.heap A._ptr = some w) ∧
        s' = { counter := s.counter, locked := false,
               heap := Function.update s.heap A._ptr (some v),
               objs := Function.update s.objs other (some ⟨B._stream, B._id, 0⟩),
               streams := Function.update s.streams A._stream (s.streams A._stream ++
                 [lineOf env A._id (if other = h then 0 else A._ptr) (if other = h then 0 else v)
                   "reporter& reporter::operator=(reporter&&)"]) } := by
  cases hl : s.locked <;> cases hA : s.objs h <;> cases hB : s.objs other <;>
    try (simp [assignMove, bind_apply, pure_apply, getObj, mutexLock, _log, write, mutexUnlock,
      load, store, setPtr, hl, hA, hB]; done)
  rename_i A B
  by_cases hoh : other = h
  · subst hoh
    obtain rfl : A = B := by rw [hA] at hB; exact Option.some.inj hB
    by_cases hp : A._ptr = 0 <;> cases hw : s.heap A._ptr <;>
      simp [assignMove, bind_apply, pure_apply, getObj, mutexLock, _log, write, mutexUnlock,
        load, store, setPtr, hl, hA, hp, hw, lineOf]
    exact eq_comm
  · have hho : h ≠ other := fun e => hoh e.symm
    by_cases hq : B._ptr = 0 <;> cases hv : s.heap B._ptr <;> by_cases hp : A._ptr = 0 <;>
      cases hw : s.heap A._ptr <;>
      simp [assignMove, bind_apply, pure_apply, getObj, mutexLock, _log, write, mutexUnlock,
        load, store, setPtr, hl, hA, hB, hq, hv, hp, hw, lineOf, hoh, hho]
    exact eq_comm

/-- When `reporter::operator()` returns, and the state it returns in. -/
theorem invoke_ok_iff (env : Env) (h : Nat) (c : Call) (s s' : State) :
    invoke env h c s = Res.ok () s' ↔
      s.locked = false ∧ ∃ A, s.objs h = some A ∧ Readable s A._ptr ∧
        s' = { counter := s.counter, locked := false, heap := s.heap, objs := s.objs,
               streams := Function.update s.streams A._stream (s.streams A._stream ++
                 [lineOf env A._id A._ptr (peek s A._ptr) c.text]) } := by
  cases hl : s.locked <;> cases hA : s.objs h <;>
    try (simp [invoke, bind_apply, pure_apply, getObj, mutexLock, _log, write, mutexUnlock, load,
      hl, hA]; done)
  rename_i A
  by_cases hp : A._ptr = 0
  · simp [invoke, bind_apply, pure_apply, getObj, mutexLock, _log, write, mutexUnlock, load,
      hl, hA, hp, Readable, peek, lineOf]
    exact eq_comm
  · cases hv : s.heap A._ptr <;>
      simp [invoke, bind_apply, pure_apply, getObj, mutexLock, _log, write, mutexUnlock, load,
        hl, hA, hp, Readable, peek, lineOf, hv]
    exact eq_comm

/-! ## The counter -/

/-- Every constructor that returns has incremented the counter and given the new
value to its object as `_id`; every other operation leaves the counter alone. -/
theorem exec_counter (env : Env) (op : Op) (s s1 : State) (h : exec env op s = Res.ok () s1) :
    (op.isCtor = true → s1.counter = (s.counter + 1) % sizeMod ∧
      ∃ r, s1.objs op.self = some r ∧ r._id = (s.counter + 1) % sizeMod) ∧
    (op.isCtor = false → s1.counter = s.counter) := by
  cases op with
  | ctorDefault b a =>
    obtain ⟨-, -, -, rfl⟩ := (ctorDefault_ok_iff env b a s s1).1 h
    simp [Op.isCtor, Op.self]
  | ctorStream b st a =>
    obtain ⟨-, -, -, rfl⟩ := (ctorStream_ok_iff env b st a s s1).1 h
    simp [Op.isCtor, Op.self]
  | ctorCopy b o a =>
    obtain ⟨-, -, -, A, v, -, -, -, rfl⟩ := (ctorCopy_ok_iff env b o a s s1).1 h
    simp [Op.isCtor, Op.self]
  | ctorMove b o =>
    obtain ⟨-, hb, A, hA, -, rfl⟩ := (ctorMove_ok_iff env b o s s1).1 h
    have hne : b ≠ o := by rintro rfl; rw [hb] at hA; cases hA
    simp [Op.isCtor, Op.self, hne]
  | dtor b =>
    obtain ⟨-, A, -, -, rfl⟩ := (dtor_ok_iff env b s s1).1 h
    simp [Op.isCtor]
  | assignCopy b o =>
    obtain ⟨-, A, B, v, -, -, -, -, -, -, rfl⟩ := (assignCopy_ok_iff env b o s s1).1 h
    simp [Op.isCtor]
  | assignMove b o =>
    obtain ⟨-, A, B, v, -, -, -, -, -, -, rfl⟩ := (assignMove_ok_iff env b o s s1).1 h
    simp [Op.isCtor]
  | invoke b c =>
    obtain ⟨-, A, -, -, rfl⟩ := (invoke_ok_iff env b c s s1).1 h
    simp [Op.isCtor]

/-- No operation changes the `_id` of an object that stays alive. -/
theorem exec_id_stable (env : Env) (op : Op) (s s1 : State) (h : exec env op s = Res.ok () s1)
    (k : Nat) (r : Reporter) (hk : s.objs k = some r) :
    s1.objs k = none ∨ ∃ r1, s1.objs k = some r1 ∧ r1._id = r._id ∧ r1._stream = r._stream := by
  cases op with
  | ctorDefault b a =>
    obtain ⟨-, hb, -, rfl⟩ := (ctorDefault_ok_iff env b a s s1).1 h
    have hne : k ≠ b := by rintro rfl; rw [hb] at hk; cases hk
    simp [hne, hk]
  | ctorStream b st a =>
    obtain ⟨-, hb, -, rfl⟩ := (ctorStream_ok_iff env b st a s s1).1 h
    have hne : k ≠ b := by rintro rfl; rw [hb] at hk; cases hk
    simp [hne, hk]
  | ctorCopy b o a =>
    obtain ⟨-, hb, -, A, v, -, -, -, rfl⟩ := (ctorCopy_ok_iff env b o a s s1).1 h
    have hne : k ≠ b := by rintro rfl; rw [hb] at hk; cases hk
    simp [hne, hk]
  | ctorMove b o =>
    obtain ⟨-, hb, A, hA, -, rfl⟩ := (ctorMove_ok_iff env b o s s1).1 h
    have hne : k ≠ b := by rintro rfl; rw [hb] at hk; cases hk
    by_cases hko : k = o
    · subst hko; rw [hA] at hk; cases hk; simp
    · simp [hne, hko, hk]
  | dtor b =>
    obtain ⟨-, A, -, -, rfl⟩ := (dtor_ok_iff env b s s1).1 h
    by_cases hkb : k = b
    · subst hkb; simp
    · simp [hkb, hk]
  | assignCopy b o =>
    obtain ⟨-, A, B, v, -, -, -, -, -, -, rfl⟩ := (assignCopy_ok_iff env b o s s1).1 h
    simp [hk]
  | assignMove b o =>
    obtain ⟨-, A, B, v, -, hB, -, -, -, -, rfl⟩ := (assignMove_ok_iff env b o s s1).1 h
    by_cases hko : k = o
    · subst hko; rw [hB] at hk; cases hk; simp
    · simp [hko, hk]
  | invoke b c =>
    obtain ⟨-, A, -, -, rfl⟩ := (invoke_ok_iff env b c s s1).1 h
    simp [hk]

theorem run_cons_ok (env : Env) (op : Op) (ops : List Op) (s s2 : State) :
    run env (op :: ops) s = Res.ok () s2 ↔
      ∃ s1, exec env op s = Res.ok () s1 ∧ run env ops s1 = Res.ok () s2 := by
  simp only [run, bind_apply]
  cases h : exec env op s with
  | ok u s1 => simp
  | fault e s1 => simp

theorem run_nil_ok (env : Env) (s s2 : State) : run env [] s = Res.ok () s2 ↔ s2 = s := by
  simp [run, pure_apply, eq_comm]

theorem constructions_cons (op : Op) (ops : List Op) :
    constructions (op :: ops) = (if op.isCtor then 1 else 0) + constructions ops := by
  cases h : op.isCtor <;> simp [constructions, List.filter_cons, h, Nat.add_comm]

/-- From any state, as long as the counter does not wrap, the constructions of a
run receive the consecutive ids after the counter, and the counter ends as many
higher as there were constructions. -/
theorem run_ids (env : Env) (ops : List Op) :
    ∀ s s2, run env ops s = Res.ok () s2 → s.counter + constructions ops < sizeMod →
      assignedIds env ops s = List.range' (s.counter + 1) (constructions ops) ∧
      s2.counter = s.counter + constructions ops := by
  induction ops with
  | nil =>
    intro s s2 h _
    rw [run_nil_ok] at h
    subst h
    simp [assignedIds, constructions]
  | cons op ops ih =>
    intro s s2 h hb
    obtain ⟨s1, h1, h2⟩ := (run_cons_ok env op ops s s2).1 h
    rw [constructions_cons] at hb ⊢
    obtain ⟨hc, hn⟩ := exec_counter env op s s1 h1
    cases hop : op.isCtor with
    | true =>
      obtain ⟨hc1, r, hr, hid⟩ := hc hop
      simp only [hop, if_true] at hb ⊢
      have hlt : s.counter + 1 < sizeMod := by omega
      rw [Nat.mod_eq_of_lt hlt] at hc1 hid
      obtain ⟨ih1, ih2⟩ := ih s1 s2 h2 (by rw [hc1]; omega)
      refine ⟨?_, by rw [ih2, hc1]; omega⟩
      simp only [assignedIds, h1, hop, if_true, hr, ih1, hid, hc1]
      rw [Nat.add_comm 1 (constructions ops), List.range'_succ]
      simp
    | false =>
      have hc1 := hn hop
      simp only [hop] at hb ⊢
      obtain ⟨ih1, ih2⟩ := ih s1 s2 h2 (by rw [hc1]; simpa using hb)
      refine ⟨?_, by rw [ih2, hc1]; simp⟩
      simp [assignedIds, h1, hop, ih1, hc1]

theorem run_append_ok (env : Env) (pre rest : List Op) :
    ∀ s s2, run env (pre ++ rest) s = Res.ok () s2 ↔
      ∃ t, run env pre s = Res.ok () t ∧ run env rest t = Res.ok () s2 := by
  induction pre with
  | nil => intro s s2; simp [run_nil_ok]
  | cons op pre ih =>
    intro s s2
    simp only [List.cons_append, run_cons_ok, ih]
    constructor
    · rintro ⟨s1, h1, t, h2, h3⟩; exact ⟨t, ⟨s1, h1, h2⟩, h3⟩
    · rintro ⟨t, ⟨s1, h1, h2⟩, h3⟩; exact ⟨s1, h1, t, h2, h3⟩

theorem constructions_append (pre rest : List Op) :
    constructions (pre ++ rest) = constructions pre + constructions rest := by
  simp [constructions, List.filter_append]

/-! ## Exclusive ownership -/

theorem owned_ctor_fresh (s : State) (hO : Owned s) (b a c : Nat) (st : Nat) (v : Nat)
    (hfr : s.heap a = none) (cnt : Nat) (str : Nat → List Line) :
    Owned { counter := cnt, locked := false, heap := Function.update s.heap a (some v),
            objs := Function.update s.objs b (some ⟨st, c, a⟩), streams := str } := by
  refine ⟨rfl, ?_, ?_⟩
  · intro k r hk hr
    simp only [Function.update_apply] at hk ⊢
    split_ifs at hk with hkb
    · cases hk; simp
    · obtain ⟨w, hw⟩ := hO.allocated k r hk hr
      split_ifs <;> simp [hw]
  · intro h1 h2 r1 r2 e1 e2 hn he
    simp only [Function.update_apply] at e1 e2
    split_ifs at e1 e2 with c1 c2 c2
    · rw [c1, c2]
    · cases e1
      obtain ⟨w, hw⟩ := hO.allocated h2 r2 e2 (by rw [← he]; exact hn)
      rw [← he] at hw; simp at hw; rw [hfr] at hw; cases hw
    · cases e2
      obtain ⟨w, hw⟩ := hO.allocated h1 r1 e1 hn
      rw [he] at hw; simp at hw; rw [hfr] at hw; cases hw
    · exact hO.exclusive h1 h2 r1 r2 e1 e2 hn he

/-- Exclusive ownership is preserved by every operation that returns, as long as
`new` hands out fresh cells. -/
theorem exec_owned (env : Env) (op : Op) (s s1 : State) (hO : Owned s) (hf : FreshAlloc s op)
    (h : exec env op s = Res.ok () s1) : Owned s1 := by
  cases op with
  | ctorDefault b a =>
    obtain ⟨-, -, -, rfl⟩ := (ctorDefault_ok_iff env b a s s1).1 h
    exact owned_ctor_fresh s hO b a _ _ _ (hf a rfl) _ _
  | ctorStream b st a =>
    obtain ⟨-, -, -, rfl⟩ := (ctorStream_ok_iff env b st a s s1).1 h
    exact owned_ctor_fresh s hO b a _ _ _ (hf a rfl) _ _
  | ctorCopy b o a =>
    obtain ⟨-, -, -, A, v, -, -, -, rfl⟩ := (ctorCopy_ok_iff env b o a s s1).1 h
    exact owned_ctor_fresh s hO b a _ _ _ (hf a rfl) _ _
  | ctorMove b o =>
    obtain ⟨-, hb, A, hA, -, rfl⟩ := (ctorMove_ok_iff env b o s s1).1 h
    have hne : b ≠ o := by rintro rfl; rw [hb] at hA; cases hA
    refine ⟨rfl, ?_, ?_⟩
    · intro k r hk hr
      simp only [Function.update_apply] at hk
      split_ifs at hk with c1 c2
      · cases hk; exact absurd rfl hr
      · cases hk; exact hO.allocated o A hA hr
      · exact hO.allocated k r hk hr
    · intro h1 h2 r1 r2 e1 e2 hn he
      simp only [Function.update_apply] at e1 e2
      split_ifs at e1 e2
      all_goals first
        | (cases e1; exact absurd rfl hn)
        | (cases e2; exact absurd he hn)
        | omega
        | (cases e1; have := hO.exclusive o h2 A r2 hA e2 hn he; omega)
        | (cases e2; have := hO.exclusive h1 o r1 A e1 hA hn he; omega)
        | exact hO.exclusive h1 h2 r1 r2 e1 e2 hn he
  | dtor b =>
    obtain ⟨-, A, hA, -, rfl⟩ := (dtor_ok_iff env b s s1).1 h
    refine ⟨rfl, ?_, ?_⟩
    · intro k r hk hr
      simp only [Function.update_apply] at hk
      split_ifs at hk with c1
      obtain ⟨w, hw⟩ := hO.allocated k r hk hr
      by_cases hp : A._ptr = 0
      · simp [hp, hw]
      · have : r._ptr ≠ A._ptr := fun e => c1 (hO.exclusive k b r A hk hA hr e)
        simp [hp, Function.update_apply, this, hw]
    · intro h1 h2 r1 r2 e1 e2 hn he
      simp only [Function.update_apply] at e1 e2
      split_ifs at e1 e2
      exact hO.exclusive h1 h2 r1 r2 e1 e2 hn he
  | assignCopy b o =>
    obtain ⟨-, A, B, v, -, -, -, -, -, -, rfl⟩ := (assignCopy_ok_iff env b o s s1).1 h
    refine ⟨rfl, ?_, hO.exclusive⟩
    intro k r hk hr
    obtain ⟨w, hw⟩ := hO.allocated k r hk hr
    simp only [Function.update_apply]
    split_ifs <;> simp [hw]
  | assignMove b o =>
    obtain ⟨-, A, B, v, -, hB, -, -, -, -, rfl⟩ := (assignMove_ok_iff env b o s s1).1 h
    refine ⟨rfl, ?_, ?_⟩
    · intro k r hk hr
      simp only [Function.update_apply] at hk
      split_ifs at hk with c1
      · cases hk; exact absurd rfl hr
      · obtain ⟨w, hw⟩ := hO.allocated k r hk hr
        simp only [Function.update_apply]
        split_ifs <;> simp [hw]
    · intro h1 h2 r1 r2 e1 e2 hn he
      simp only [Function.update_apply] at e1 e2
      split_ifs at e1 e2
      all_goals first
        | (cases e1; exact absurd rfl hn)
        | (cases e2; exact absurd he hn)
        | exact hO.exclusive h1 h2 r1 r2 e1 e2 hn he
  | invoke b c =>
    obtain ⟨-, A, -, -, rfl⟩ := (invoke_ok_iff env b c s s1).1 h
    exact ⟨rfl, hO.allocated, hO.exclusive⟩

theorem owned_init : Owned State.init :=
  ⟨rfl, fun _ _ h _ => (by cases h), fun _ _ _ _ h _ _ _ => (by cases h)⟩

theorem steps_owned (env : Env) (s : State) (ops : List Op) (s2 : State)
    (hs : Steps env s ops s2) (hO : Owned s) : Owned s2 := by
  induction hs with
  | nil s => exact hO
  | cons hf he _ ih => exact ih (exec_owned env _ _ _ hO hf he)

theorem owned_readable (s : State) (hO : Owned s) (h : Nat) (r : Reporter)
    (hr : s.objs h = some r) : Readable s r._ptr := by
  by_cases hp : r._ptr = 0
  · exact Or.inl hp
  · exact Or.inr (hO.allocated h r hr hp)

/-- Destroying distinct live objects one after the other, in any order, returns:
each destructor finds its cell allocated or its pointer null. -/
theorem dtor_all (env : Env) (hs : List Nat) :
    ∀ s, Owned s → hs.Nodup → (∀ h ∈ hs, ∃ r, s.objs h = some r) →
      ∃ s2, run env (hs.map Op.dtor) s = Res.ok () s2 ∧
        (∀ k, s2.objs k = if k ∈ hs then none else s.objs k) ∧
        (∀ h ∈ hs, ∀ r, s.objs h = some r → r._ptr ≠ 0 → s2.heap r._ptr = none) ∧
        (∀ c, s.heap c = none → s2.heap c = none) := by
  induction hs with
  | nil =>
    intro s _ _ _
    exact ⟨s, (run_nil_ok env s s).2 rfl, by simp, by simp, fun _ h => h⟩
  | cons h hs ih =>
    intro s hO hnd hlive
    obtain ⟨hnot, hnd'⟩ := List.nodup_cons.1 hnd
    obtain ⟨A, hA⟩ := hlive h (List.mem_cons_self h hs)
    have hex : exec env (Op.dtor h) s = Res.ok () _ :=
      (dtor_ok_iff env h s _).2 ⟨hO.unlocked, A, hA, owned_readable s hO h A hA, rfl⟩
    have hO1 := exec_owned env (Op.dtor h) s _ hO (fun a ha => by cases ha) hex
    obtain ⟨s2, hrun, hobj, hfree, hmono⟩ := ih _ hO1 hnd' (by
      intro k hk
      obtain ⟨r, hr⟩ := hlive k (List.mem_cons_of_mem h hk)
      have hkh : k ≠ h := by rintro rfl; exact hnot hk
      exact ⟨r, by simp [hkh, hr]⟩)
    refine ⟨s2, (run_cons_ok env _ _ s s2).2 ⟨_, hex, hrun⟩, ?_, ?_, ?_⟩
    · intro k
      rw [hobj k]
      by_cases hk : k ∈ hs
      · simp [hk, List.mem_cons]
      · by_cases hkh : k = h
        · subst hkh; simp [hnot, List.mem_cons]
        · simp [hk, hkh, List.mem_cons]
    · intro k hk r hr hp
      rcases List.mem_cons.1 hk with rfl | hk'
      · rw [hA] at hr; cases hr
        apply hmono
        simp [hp]
      · have hkh : k ≠ h := by rintro rfl; exact hnot hk'
        exact hfree k hk' r (by simp [hkh, hr]) hp
    · intro c hc
      apply hmono
      by_cases hp : A._ptr = 0
      · simp [hp, hc]
      · simp only [hp, if_false, Function.update_apply]
        split_ifs <;> simp [hc]

/-! ## The worked examples -/

theorem sample_exec1 :
    exec sampleEnv (Op.ctorDefault 1 100) State.init = Res.ok () sampleState1 :=
  (ctorDefault_ok_iff sampleEnv 1 100 State.init sampleState1).2 ⟨rfl, rfl, by decide, rfl⟩

theorem sample_exec2 :
    exec sampleEnv (Op.ctorDefault 2 200) sampleState1 = Res.ok () sampleState :=
  (ctorDefault_ok_iff sampleEnv 2 200 sampleState1 sampleState).2 ⟨rfl, rfl, by decide, rfl⟩

theorem sample_steps :
    Steps sampleEnv State.init [Op.ctorDefault 1 100, Op.ctorDefault 2 200] sampleState :=
  Steps.cons (fun _ _ => rfl) sample_exec1
    (Steps.cons (fun a ha => by cases ha; rfl) sample_exec2 (Steps.nil _))

theorem sample_run :
    run sampleEnv [Op.ctorDefault 1 100, Op.ctorDefault 2 200] State.init = Res.ok () sampleState :=
  (run_cons_ok _ _ _ _ _).2 ⟨_, sample_exec1,
    (run_cons_ok _ _ _ _ _).2 ⟨_, sample_exec2, (run_nil_ok _ _ _).2 rfl⟩⟩

theorem moved_exec :
    exec sampleEnv (Op.ctorMove 3 1) sampleState = Res.ok () movedState :=
  (ctorMove_ok_iff sampleEnv 3 1 sampleState movedState).2
    ⟨rfl, rfl, ⟨0, 1, 100⟩, rfl, Or.inr ⟨1, rfl⟩, rfl⟩

theorem sample_owned : Owned sampleState :=
  steps_owned sampleEnv _ _ _ sample_steps owned_init

theorem sample_obj1 : sampleState.objs 1 = some ⟨0, 1, 100⟩ := rfl
theorem sample_obj2 : sampleState.objs 2 = some ⟨0, 2, 200⟩ := rfl
theorem sample_heap1 : sampleState.heap 100 = some 1 := rfl
theorem sample_heap2 : sampleState.heap 200 = some 2 := rfl

/-! ## Invalidated objects -/

theorem exec_unlocked (env : Env) (op : Op) (s s1 : State) (h : exec env op s = Res.ok () s1) :
    s1.locked = false := by
  cases op with
  | ctorDefault b a => obtain ⟨-, -, -, rfl⟩ := (ctorDefault_ok_iff env b a s s1).1 h; rfl
  | ctorStream b st a => obtain ⟨-, -, -, rfl⟩ := (ctorStream_ok_iff env b st a s s1).1 h; rfl
  | ctorCopy b o a =>
    obtain ⟨-, -, -, A, v, -, -, -, rfl⟩ := (ctorCopy_ok_iff env b o a s s1).1 h; rfl
  | ctorMove b o => obtain ⟨-, -, A, -, -, rfl⟩ := (ctorMove_ok_iff env b o s s1).1 h; rfl
  | dtor b => obtain ⟨-, A, -, -, rfl⟩ := (dtor_ok_iff env b s s1).1 h; rfl
  | assignCopy b o =>
    obtain ⟨-, A, B, v, -, -, -, -, -, -, rfl⟩ := (assignCopy_ok_iff env b o s s1).1 h; rfl
  | assignMove b o =>
    obtain ⟨-, A, B, v, -, -, -, -, -, -, rfl⟩ := (assignMove_ok_iff env b o s s1).1 h; rfl
  | invoke b c => obtain ⟨-, A, -, -, rfl⟩ := (invoke_ok_iff env b c s s1).1 h; rfl

/-- An invalidated object stays invalidated, with its id, under every operation
that returns, except its own destruction. -/
theorem exec_invalidated (env : Env) (op : Op) (s s1 : State) (a id : Nat)
    (h : exec env op s = Res.ok () s1) (hi : Invalidated s a id) (hop : op ≠ Op.dtor a) :
    Invalidated s1 a id := by
  obtain ⟨r, hr, hp, hid⟩ := hi
  cases op with
  | ctorDefault b x =>
    obtain ⟨-, hb, -, rfl⟩ := (ctorDefault_ok_iff env b x s s1).1 h
    have hne : a ≠ b := by rintro rfl; rw [hb] at hr; cases hr
    exact ⟨r, by simp [hne, hr], hp, hid⟩
  | ctorStream b st x =>
    obtain ⟨-, hb, -, rfl⟩ := (ctorStream_ok_iff env b st x s s1).1 h
    have hne : a ≠ b := by rintro rfl; rw [hb] at hr; cases hr
    exact ⟨r, by simp [hne, hr], hp, hid⟩
  | ctorCopy b o x =>
    obtain ⟨-, hb, -, A, v, -, -, -, rfl⟩ := (ctorCopy_ok_iff env b o x s s1).1 h
    have hne : a ≠ b := by rintro rfl; rw [hb] at hr; cases hr
    exact ⟨r, by simp [hne, hr], hp, hid⟩
  | ctorMove b o =>
    obtain ⟨-, hb, A, hA, -, rfl⟩ := (ctorMove_ok_iff env b o s s1).1 h
    have hne : a ≠ b := by rintro rfl; rw [hb] at hr; cases hr
    by_cases hao : a = o
    · subst hao
      rw [hA] at hr; cases hr
      exact ⟨⟨r._stream, r._id, 0⟩, by simp, rfl, hid⟩
    · exact ⟨r, by simp [hne, hao, hr], hp, hid⟩
  | dtor b =>
    obtain ⟨-, A, -, -, rfl⟩ := (dtor_ok_iff env b s s1).1 h
    have hne : a ≠ b := by rintro rfl; exact hop rfl
    exact ⟨r, by simp [hne, hr], hp, hid⟩
  | assignCopy b o =>
    obtain ⟨-, A, B, v, -, -, -, -, -, -, rfl⟩ := (assignCopy_ok_iff env b o s s1).1 h
    exact ⟨r, hr, hp, hid⟩
  | assignMove b o =>
    obtain ⟨-, A, B, v, -, hB, hq, -, -, -, rfl⟩ := (assignMove_ok_iff env b o s s1).1 h
    have hao : a ≠ o := by rintro rfl; rw [hB] at hr; cases hr; exact hq hp
    exact ⟨r, by simp [hao, hr], hp, hid⟩
  | invoke b c =>
    obtain ⟨-, A, -, -, rfl⟩ := (invoke_ok_iff env b c s s1).1 h
    exact ⟨r, hr, hp, hid⟩

theorem run_invalidated (env : Env) (ops : List Op) (a id : Nat) :
    ∀ s s2, run env ops s = Res.ok () s2 → s.locked = false → Invalidated s a id →
      Op.dtor a ∉ ops → s2.locked = false ∧ Invalidated s2 a id := by
  induction ops with
  | nil =>
    intro s s2 h hl hi _
    rw [run_nil_ok] at h; subst h
    exact ⟨hl, hi⟩
  | cons op ops ih =>
    intro s s2 h _ hi hnot
    obtain ⟨s1, h1, h2⟩ := (run_cons_ok env op ops s s2).1 h
    have hop : op ≠ Op.dtor a := fun e => hnot (by rw [e]; exact List.mem_cons_self _ _)
    exact ih s1 s2 h2 (exec_unlocked env op s s1 h1) (exec_invalidated env op s s1 a id h1 hi hop)
      (fun hm => hnot (List.mem_cons_of_mem _ hm))

/-! ## Ids of the live objects -/

/-- Where the objects of the state after an operation come from: a constructor
adds its object, with the new counter as id; every other object was there
before, with the same id. -/
theorem exec_origin (env : Env) (op : Op) (s s1 : State) (h : exec env op s = Res.ok () s1)
    (k : Nat) (r1 : Reporter) (hk : s1.objs k = some r1) :
    (op.isCtor = true ∧ r1._id = s1.counter) ∨ ∃ r, s.objs k = some r ∧ r._id = r1._id := by
  cases op with
  | ctorDefault b a =>
    obtain ⟨-, -, -, rfl⟩ := (ctorDefault_ok_iff env b a s s1).1 h
    simp only [Function.update_apply] at hk
    split_ifs at hk
    · cases hk; exact Or.inl ⟨rfl, rfl⟩
    · exact Or.inr ⟨r1, hk, rfl⟩
  | ctorStream b st a =>
    obtain ⟨-, -, -, rfl⟩ := (ctorStream_ok_iff env b st a s s1).1 h
    simp only [Function.update_apply] at hk
    split_ifs at hk
    · cases hk; exact Or.inl ⟨rfl, rfl⟩
    · exact Or.inr ⟨r1, hk, rfl⟩
  | ctorCopy b o a =>
    obtain ⟨-, -, -, A, v, -, -, -, rfl⟩ := (ctorCopy_ok_iff env b o a s s1).1 h
    simp only [Function.update_apply] at hk
    split_ifs at hk
    · cases hk; exact Or.inl ⟨rfl, rfl⟩
    · exact Or.inr ⟨r1, hk, rfl⟩
  | ctorMove b o =>
    obtain ⟨-, -, A, hA, -, rfl⟩ := (ctorMove_ok_iff env b o s s1).1 h
    simp only [Function.update_apply] at hk
    split_ifs at hk with c1 c2
    · cases hk; subst c1; exact Or.inr ⟨A, hA, rfl⟩
    · cases hk; exact Or.inl ⟨rfl, rfl⟩
    · exact Or.inr ⟨r1, hk, rfl⟩
  | dtor b =>
    obtain ⟨-, A, -, -, rfl⟩ := (dtor_ok_iff env b s s1).1 h
    simp only [Function.update_apply] at hk
    split_ifs at hk
    exact Or.inr ⟨r1, hk, rfl⟩
  | assignCopy b o =>
    obtain ⟨-, A, B, v, -, -, -, -, -, -, rfl⟩ := (assignCopy_ok_iff env b o s s1).1 h
    exact Or.inr ⟨r1, hk, rfl⟩
  | assignMove b o =>
    obtain ⟨-, A, B, v, -, hB, -, -, -, -, rfl⟩ := (assignMove_ok_iff env b o s s1).1 h
    simp only [Function.update_apply] at hk
    split_ifs at hk with c1
    · cases hk; subst c1; exact Or.inr ⟨B, hB, rfl⟩
    · exact Or.inr ⟨r1, hk, rfl⟩
  | invoke b c =>
    obtain ⟨-, A, -, -, rfl⟩ := (invoke_ok_iff env b c s s1).1 h
    exact Or.inr ⟨r1, hk, rfl⟩

/-- As long as the counter has not wrapped, the id of every live object is at most
the counter. -/
theorem run_id_le (env : Env) (ops : List Op) :
    ∀ s s2, run env ops s = Res.ok () s2 → s.counter + constructions ops < sizeMod →
      (∀ k r, s.objs k = some r → r._id ≤ s.counter) →
      ∀ k r, s2.objs k = some r → r._id ≤ s2.counter := by
  induction ops with
  | nil =>
    intro s s2 h _ hs
    rw [run_nil_ok] at h; subst h; exact hs
  | cons op ops ih =>
    intro s s2 h hb hs
    obtain ⟨s1, h1, h2⟩ := (run_cons_ok env op ops s s2).1 h
    rw [constructions_cons] at hb
    obtain ⟨hc, hn⟩ := exec_counter env op s s1 h1
    have hmono : s.counter ≤ s1.counter ∧ s1.counter + constructions ops < sizeMod := by
      cases hop : op.isCtor with
      | true =>
        simp only [hop, if_true] at hb
        have := (hc hop).1
        rw [Nat.mod_eq_of_lt (by omega)] at this
        omega
      | false =>
        simp only [hop] at hb
        have := hn hop
        omega
    refine ih s1 s2 h2 hmono.2 ?_
    intro k r hk
    rcases exec_origin env op s s1 h1 k r hk with ⟨-, hid⟩ | ⟨r0, hr0, hid⟩
    · omega
    · have := hs k r0 hr0
      omega

/-! ## Cells without an owner -/

/-- A cell that no live object points to stays allocated, with its value and
without an owner, under every operation that returns while `new` hands out
fresh cells. -/
theorem exec_leaked (env : Env) (op : Op) (s s1 : State) (c v : Nat)
    (hL : Leaked s c v) (hf : FreshAlloc s op) (h : exec env op s = Res.ok () s1) :
    Leaked s1 c v := by
  obtain ⟨hc0, hcv, hno⟩ := hL
  have hfresh : ∀ a, s.heap a = none → c ≠ a := by
    rintro a ha rfl; rw [ha] at hcv; cases hcv
  cases op with
  | ctorDefault b a =>
    obtain ⟨-, -, -, rfl⟩ := (ctorDefault_ok_iff env b a s s1).1 h
    have hca := hfresh a (hf a rfl)
    refine ⟨hc0, by simp [hca, hcv], ?_⟩
    intro k r hk
    simp only [Function.update_apply] at hk
    split_ifs at hk
    · cases hk; exact hca.symm
    · exact hno k r hk
  | ctorStream b st a =>
    obtain ⟨-, -, -, rfl⟩ := (ctorStream_ok_iff env b st a s s1).1 h
    have hca := hfresh a (hf a rfl)
    refine ⟨hc0, by simp [hca, hcv], ?_⟩
    intro k r hk
    simp only [Function.update_apply] at hk
    split_ifs at hk
    · cases hk; exact hca.symm
    · exact hno k r hk
  | ctorCopy b o a =>
    obtain ⟨-, -, -, A, w, -, -, -, rfl⟩ := (ctorCopy_ok_iff env b o a s s1).1 h
    have hca := hfresh a (hf a rfl)
    refine ⟨hc0, by simp [hca, hcv], ?_⟩
    intro k r hk
    simp only [Function.update_apply] at hk
    split_ifs at hk
    · cases hk; exact hca.symm
    · exact hno k r hk
  | ctorMove b o =>
    obtain ⟨-, -, A, hA, -, rfl⟩ := (ctorMove_ok_iff env b o s s1).1 h
    refine ⟨hc0, hcv, ?_⟩
    intro k r hk
    simp only [Function.update_apply] at hk
    split_ifs at hk
    · cases hk; exact hc0.symm
    · cases hk; exact hno o A hA
    · exact hno k r hk
  | dtor b =>
    obtain ⟨-, A, hA, -, rfl⟩ := (dtor_ok_iff env b s s1).1 h
    have hne : c ≠ A._ptr := (hno b A hA).symm
    refine ⟨hc0, ?_, ?_⟩
    · by_cases hp : A._ptr = 0
      · simp [hp, hcv]
      · simp [hp, hne, hcv]
    · intro k r hk
      simp only [Function.update_apply] at hk
      split_ifs at hk
      exact hno k r hk
  | assignCopy b o =>
    obtain ⟨-, A, B, w, hA, -, -, -, -, -, rfl⟩ := (assignCopy_ok_iff env b o s s1).1 h
    have hne : c ≠ A._ptr := (hno b A hA).symm
    exact ⟨hc0, by simp [hne, hcv], hno⟩
  | assignMove b o =>
    obtain ⟨-, A, B, w, hA, hB, -, -, -, -, rfl⟩ := (assignMove_ok_iff env b o s s1).1 h
    have hne : c ≠ A._ptr := (hno b A hA).symm
    refine ⟨hc0, by simp [hne, hcv], ?_⟩
    intro k r hk
    simp only [Function.update_apply] at hk
    split_ifs at hk
    · cases hk; exact hc0.symm
    · exact hno k r hk
  | invoke b x =>
    obtain ⟨-, A, -, -, rfl⟩ := (invoke_ok_iff env b x s s1).1 h
    exact ⟨hc0, hcv, hno⟩

theorem steps_leaked (env : Env) (s : State) (ops : List Op) (s2 : State) (c v : Nat)
    (hs : Steps env s ops s2) (hL : Leaked s c v) : Leaked s2 c v := by
  induction hs with
  | nil s => exact hL
  | cons hf he _ ih => exact ih (exec_leaked env _ _ _ c v hL hf he)

/-! ## Null dereferences -/

/-- Copy construction from an object whose pointer is null, with an allocation that
succeeds, stops at `*other._ptr`, after `operator new`: the counter is
incremented, the mutex held and the cell handed out is allocated; nothing
else has changed. -/
theorem ctorCopy_null (env : Env) (h other a : Nat) (s : State) (A : Reporter)
    (hl : s.locked = false) (hh : s.objs h = none) (hA : s.objs other = some A)
    (hp : A._ptr = 0) (ha : a ≠ 0) :
    ctorCopy env h other a s = Res.fault Fault.nullDeref
      { counter := (s.counter + 1) % sizeMod, locked := true,
        heap := Function.update s.heap a (some ((s.heap a).getD 0)),
        objs := s.objs, streams := s.streams } := by
  have hne : other ≠ h := by rintro rfl; rw [hh] at hA; cases hA
  have hobjs : Function.update s.objs h none = s.objs := by
    rw [← hh]; exact Function.update_eq_self h s.objs
  simp [ctorCopy, bind_apply, pure_apply, getObj, construct, abandonOnFault, mutexLock,
    preIncCounter, setId, load, opAlloc, hl, hh, hA, hne, hne.symm, hp, ha, hobjs]

/-- The operations `churn n` return from every state in which the mutex is free,
the storage 9 is empty and the cell 900 is free, as long as the counter does
not wrap; they add `n` to the counter and change neither the heap nor the
objects. -/
theorem churn_steps (env : Env) (n : Nat) :
    ∀ s, s.locked = false → s.objs 9 = none → s.heap 900 = none →
      s.counter + n < sizeMod →
      ∃ s2, Steps env s (churn n) s2 ∧ s2.counter = s.counter + n ∧ s2.locked = false ∧
        s2.heap = s.heap ∧ s2.objs = s.objs := by
  induction n with
  | zero => intro s hl _ _ _; exact ⟨s, Steps.nil s, rfl, hl, rfl, rfl⟩
  | succ n ih =>
    intro s hl ho hh hc
    have hlt : s.counter + 1 < sizeMod := by omega
    obtain ⟨s1, e1, hc1, hl1, hh1, ho1⟩ : ∃ s1, exec env (Op.ctorDefault 9 900) s = Res.ok () s1 ∧
        s1.counter = s.counter + 1 ∧ s1.locked = false ∧
        s1.heap = Function.update s.heap 900 (some (s.counter + 1)) ∧
        s1.objs = Function.update s.objs 9 (some ⟨0, s.counter + 1, 900⟩) :=
      ⟨_, (ctorDefault_ok_iff env 9 900 s _).2 ⟨hl, ho, by decide, rfl⟩,
        Nat.mod_eq_of_lt hlt, rfl, by simp [Nat.mod_eq_of_lt hlt],
        by simp [Nat.mod_eq_of_lt hlt]⟩
    obtain ⟨s2, e2, hc2, hl2, hh2, ho2⟩ : ∃ s2, exec env (Op.dtor 9) s1 = Res.ok () s2 ∧
        s2.counter = s1.counter ∧ s2.locked = false ∧
        s2.heap = Function.update s1.heap 900 none ∧
        s2.objs = Function.update s1.objs 9 none :=
      ⟨_, (dtor_ok_iff env 9 s1 _).2 ⟨hl1, ⟨0, s.counter + 1, 900⟩, by simp [ho1],
        Or.inr ⟨s.counter + 1, by simp [hh1]⟩, rfl⟩, rfl, rfl, by simp, rfl⟩
    have hheap : s2.heap = s.heap := by
      rw [hh2, hh1, Function.update_idem, ← hh]; exact Function.update_eq_self 900 s.heap
    have hobjs : s2.objs = s.objs := by
      rw [ho2, ho1, Function.update_idem, ← ho]; exact Function.update_eq_self 9 s.objs
    obtain ⟨s3, hs, h1, h2, h3, h4⟩ := ih s2 hl2 (by rw [hobjs]; exact ho)
      (by rw [hheap]; exact hh) (by rw [hc2, hc1]; omega)
    refine ⟨s3, Steps.cons (fun a ha => by cases ha; exact hh) e1
      (Steps.cons (fun a ha => by cases ha) e2 hs), ?_, h2, ?_, ?_⟩
    · rw [h1, hc2, hc1]; omega
    · rw [h3, hheap]
    · rw [h4, hobjs]

theorem steps_append (env : Env) (s s1 s2 : State) (ops1 ops2 : List Op)
    (h1 : Steps env s ops1 s1) (h2 : Steps env s1 ops2 s2) : Steps env s (ops1 ++ ops2) s2 := by
  induction h1 with
  | nil s => exact h2
  | cons hf he _ ih => exact Steps.cons hf he (ih h2)

/-- Up to what the streams hold, `wrapState2` is reachable: construct object 1,
construct and destroy 65534 further objects, construct object 2. -/
theorem wrapState2_reachable :
    ∃ s, Reachable sampleEnv s ∧ s.counter = wrapState2.counter ∧
      s.locked = wrapState2.locked ∧ s.heap = wrapState2.heap ∧ s.objs = wrapState2.objs := by
  obtain ⟨s2, hs, h1, h2, h3, h4⟩ := churn_steps sampleEnv 65534 sampleState1 rfl rfl rfl
    (by decide)
  have hc : s2.counter = 65535 := h1
  obtain ⟨s3, e3, hc3, hl3, hh3, ho3⟩ : ∃ s3, exec sampleEnv (Op.ctorDefault 2 200) s2 = Res.ok () s3 ∧
      s3.counter = 65536 ∧ s3.locked = false ∧
      s3.heap = Function.update s2.heap 200 (some 65536) ∧
      s3.objs = Function.update s2.objs 2 (some ⟨0, 65536, 200⟩) :=
    ⟨_, (ctorDefault_ok_iff sampleEnv 2 200 s2 _).2 ⟨h2, by rw [h4]; rfl, by decide, rfl⟩,
      by simp [hc, sizeMod], rfl, by simp [hc, sizeMod], by simp [hc, sizeMod]⟩
  refine ⟨s3, ⟨_, Steps.cons (fun _ _ => rfl) sample_exec1
    (steps_append sampleEnv _ _ _ _ _ hs
      (Steps.cons (fun a ha => by cases ha; rw [h3]; rfl) e3 (Steps.nil _)))⟩, hc3, hl3, ?_, ?_⟩
  · rw [hh3, h3]; rfl
  · rw [ho3, h4]; rfl

/-! ## The conversions of the format -/

theorem decValue_append (xs ys : List Char) :
    decValue (xs ++ ys) = ys.foldl (fun acc c => 10 * acc + (c.toNat - 48)) (decValue xs) := by
  simp [decValue, List.foldl_append]

theorem decValue_snoc (xs : List Char) (c : Char) :
    decValue (xs ++ [c]) = 10 * decValue xs + (c.toNat - 48) := by
  simp [decValue_append]

theorem decValue_zeros (k : Nat) (xs : List Char) :
    decValue (List.replicate k '0' ++ xs) = decValue xs := by
  induction k with
  | zero => simp
  | succ k ih =>
    rw [List.replicate_succ, List.cons_append]
    simpa [decValue] using ih

/-- What `Nat.toDigitsCore` computes with enough fuel: the digits of `n` in front
of the accumulator, as many as the size of `n` requires. -/
theorem toDigitsCore_spec (b : Nat) (hb : 2 ≤ b) :
    ∀ fuel n ds, n < fuel →
      ∃ xs, Nat.toDigitsCore b fuel n ds = xs ++ ds ∧ 1 ≤ xs.length ∧
        (∀ k, 1 ≤ k → n < b ^ k → xs.length ≤ k) ∧
        (∀ k, b ^ k ≤ n → k < xs.length) ∧
        (∀ c ∈ xs, ∃ d, d < b ∧ c = Nat.digitChar d) ∧
        (b = 10 → decValue xs = n) := by
  intro fuel
  induction fuel with
  | zero => intro n ds h; omega
  | succ fuel ih =>
    intro n ds hn
    have hb0 : 0 < b := by omega
    by_cases h0 : n / b = 0
    · have hlt : n < b := (Nat.div_eq_zero_iff hb0).1 h0
      refine ⟨[Nat.digitChar (n % b)], by simp [Nat.toDigitsCore, h0], by simp, ?_, ?_, ?_, ?_⟩
      · intro k hk _; simpa using hk
      · intro k hk
        rcases k with _ | k
        · simp
        · have : b ^ 1 ≤ b ^ (k + 1) := Nat.pow_le_pow_right hb0 (by omega)
          simp at this; omega
      · intro c hc
        simp at hc
        exact ⟨n % b, Nat.mod_lt _ hb0, hc⟩
      · intro hb10
        subst hb10
        rw [Nat.mod_eq_of_lt hlt]
        have : ∀ d, d < 10 → (Nat.digitChar d).toNat - 48 = d := by decide
        simp [decValue, this n hlt]
    · have hge : b ≤ n := by
        by_contra hlt
        exact h0 (Nat.div_eq_of_lt (by omega))
      have hdiv : n / b < fuel := by
        have : n / b < n := Nat.div_lt_self (by omega) (by omega)
        omega
      obtain ⟨xs, hxs, hlen, hle, hgt, hch, hval⟩ := ih (n / b) (Nat.digitChar (n % b) :: ds) hdiv
      refine ⟨xs ++ [Nat.digitChar (n % b)], by simp [Nat.toDigitsCore, h0, hxs], by simp, ?_, ?_,
        ?_, ?_⟩
      · intro k hk hnk
        rcases k with _ | k
        · omega
        · rcases k with _ | k
          · simp at hnk; omega
          · have : n / b < b ^ (k + 1) := by
              rw [Nat.div_lt_iff_lt_mul hb0]
              rw [Nat.pow_succ] at hnk; exact hnk
            have := hle (k + 1) (by omega) this
            simp; omega
      · intro k hk
        rcases k with _ | k
        · simp
        · have : b ^ k ≤ n / b := by
            rw [Nat.le_div_iff_mul_le hb0]
            rw [Nat.pow_succ] at hk; exact hk
          have := hgt k this
          simp; omega
      · intro c hc
        rcases List.mem_append.1 hc with h | h
        · exact hch c h
        · simp at h
          exact ⟨n % b, Nat.mod_lt _ hb0, h⟩
      · intro hb10
        subst hb10
        have hd : ∀ d, d < 10 → (Nat.digitChar d).toNat - 48 = d := by decide
        rw [decValue_snoc, hval rfl, hd _ (Nat.mod_lt _ (by omega))]
        omega

theorem toDigits_spec (b : Nat) (hb : 2 ≤ b) (n : Nat) :
    1 ≤ (Nat.toDigits b n).length ∧
    (∀ k, 1 ≤ k → n < b ^ k → (Nat.toDigits b n).length ≤ k) ∧
    (∀ k, b ^ k ≤ n → k < (Nat.toDigits b n).length) ∧
    (∀ c ∈ Nat.toDigits b n, ∃ d, d < b ∧ c = Nat.digitChar d) ∧
    (b = 10 → decValue (Nat.toDigits b n) = n) := by
  obtain ⟨xs, hxs, h⟩ := toDigitsCore_spec b hb (n + 1) n [] (Nat.lt_succ_self n)
  have : Nat.toDigits b n = xs := by simpa [Nat.toDigits] using hxs
  rw [this]; exact h

theorem leftPad_length (w : Nat) (cs : List Char) :
    (leftPad w cs).length = max w cs.length := by
  simp [leftPad]; omega

/-- The conversion `%05hu` always produces exactly five decimal digits, and they
denote the argument modulo 65536. -/
theorem fmt05hu_spec (n : Nat) :
    (fmt05hu n).length = 5 ∧ (∀ c ∈ fmt05hu n, c.isDigit = true) ∧
    decValue (fmt05hu n) = n % ushortMod := by
  obtain ⟨-, hle, -, hch, hval⟩ := toDigits_spec 10 (by decide) (n % ushortMod)
  have hlt : n % ushortMod < 10 ^ 5 := by
    have : n % ushortMod < ushortMod := Nat.mod_lt _ (by decide)
    have h2 : ushortMod = 65536 := rfl
    omega
  have h5 := hle 5 (by decide) hlt
  refine ⟨?_, ?_, ?_⟩
  · rw [fmt05hu, leftPad_length]; omega
  · intro c hc
    rcases List.mem_append.1 hc with h | h
    · rw [(List.mem_replicate.1 h).2]; rfl
    · obtain ⟨d, hd, rfl⟩ := hch c h
      have : ∀ d, d < 10 → (Nat.digitChar d).isDigit = true := by decide
      exact this d hd
  · rw [fmt05hu, leftPad, decValue_zeros]; exact hval rfl

/-- The conversion `%08llX` produces between 8 and 16 hexadecimal digits: exactly 8
when the argument is below 2^32, more otherwise. -/
theorem fmt08llX_spec (n : Nat) :
    8 ≤ (fmt08llX n).length ∧ (fmt08llX n).length ≤ 16 ∧
    (n % ullongMod < 2 ^ 32 → (fmt08llX n).length = 8) ∧
    (2 ^ 32 ≤ n % ullongMod → 8 < (fmt08llX n).length) ∧
    (∀ c ∈ fmt08llX n, c ∈ hexChars) := by
  obtain ⟨-, hle, hgt, hch, -⟩ := toDigits_spec 16 (by decide) (n % ullongMod)
  have hlt : n % ullongMod < 16 ^ 16 := by
    have : n % ullongMod < ullongMod := Nat.mod_lt _ (by decide)
    have h2 : ullongMod = 16 ^ 16 := by decide
    omega
  have h16 := hle 16 (by decide) hlt
  have hlen : (fmt08llX n).length = max 8 (Nat.toDigits 16 (n % ullongMod)).length := by
    rw [fmt08llX, leftPad_length, List.length_map]
  refine ⟨by rw [hlen]; omega, by rw [hlen]; omega, ?_, ?_, ?_⟩
  · intro h
    have := hle 8 (by decide) (by
      have h2 : (16 : Nat) ^ 8 = 2 ^ 32 := by decide
      omega)
    rw [hlen]; omega
  · intro h
    have := hgt 8 (by
      have h2 : (16 : Nat) ^ 8 = 2 ^ 32 := by decide
      omega)
    rw [hlen]; omega
  · intro c hc
    rcases List.mem_append.1 hc with h | h
    · rw [(List.mem_replicate.1 h).2]; decide
    · obtain ⟨c0, hc0, rfl⟩ := List.mem_map.1 h
      obtain ⟨d, hd, rfl⟩ := hch c0 hc0
      have : ∀ d, d < 16 → (Nat.digitChar d).toUpper ∈ hexChars := by decide
      exact this d hd

theorem formatRecord_length (l : Line) :
    (formatRecord l).length = 34 + (fmt08llX l.ptr).length := by
  simp only [formatRecord, List.length_append, (fmt05hu_spec _).1, List.length_cons,
    List.length_nil]
  omega

theorem buffer_eq (l : Line) : l.buffer = formatRecord l := by
  rw [Line.buffer, List.take_of_length_le]
  rw [formatRecord_length]
  have := (fmt08llX_spec l.ptr).2.1
  have h2 : bufferSize = 127 := rfl
  omega

/-! ## The line of an operation -/

/-- Every operation that returns has written exactly one line, to the stream its
acting object is bound to; the line shows that object and the value it points
to at that moment, and carries the text of the operation. -/
theorem exec_line (env : Env) (op : Op) (s s1 : State) (h : exec env op s = Res.ok () s1) :
    ∃ r, actor op s s1 = some r ∧
      s1.streams = Function.update s.streams r._stream (s.streams r._stream ++
        [lineOf env r._id r._ptr (peek (logState op s s1) r._ptr) op.text]) := by
  cases op with
  | ctorDefault b a =>
    obtain ⟨-, -, ha, rfl⟩ := (ctorDefault_ok_iff env b a s s1).1 h
    exact ⟨⟨0, (s.counter + 1) % sizeMod, a⟩, by simp [actor, Op.isDtor, Op.self],
      by simp [logState, Op.isDtor, peek, ha, Op.text]⟩
  | ctorStream b st a =>
    obtain ⟨-, -, ha, rfl⟩ := (ctorStream_ok_iff env b st a s s1).1 h
    exact ⟨⟨st, (s.counter + 1) % sizeMod, a⟩, by simp [actor, Op.isDtor, Op.self],
      by simp [logState, Op.isDtor, peek, ha, Op.text]⟩
  | ctorCopy b o a =>
    obtain ⟨-, -, ha, A, v, -, -, -, rfl⟩ := (ctorCopy_ok_iff env b o a s s1).1 h
    exact ⟨⟨A._stream, (s.counter + 1) % sizeMod, a⟩, by simp [actor, Op.isDtor, Op.self],
      by simp [logState, Op.isDtor, peek, ha, Op.text]⟩
  | ctorMove b o =>
    obtain ⟨-, hb, A, hA, -, rfl⟩ := (ctorMove_ok_iff env b o s s1).1 h
    have hne : b ≠ o := by rintro rfl; rw [hb] at hA; cases hA
    exact ⟨⟨A._stream, (s.counter + 1) % sizeMod, A._ptr⟩,
      by simp [actor, Op.isDtor, Op.self, hne],
      by simp [logState, Op.isDtor, peek, Op.text]⟩
  | dtor b =>
    obtain ⟨-, A, hA, -, rfl⟩ := (dtor_ok_iff env b s s1).1 h
    exact ⟨A, by simp [actor, Op.isDtor, Op.self, hA], by simp [logState, Op.isDtor, Op.text]⟩
  | assignCopy b o =>
    obtain ⟨-, A, B, v, hA, -, -, -, hp, -, rfl⟩ := (assignCopy_ok_iff env b o s s1).1 h
    exact ⟨A, by simp [actor, Op.isDtor, Op.self, hA],
      by simp [logState, Op.isDtor, peek, hp, Op.text]⟩
  | assignMove b o =>
    obtain ⟨-, A, B, v, hA, hB, -, -, hp, -, rfl⟩ := (assignMove_ok_iff env b o s s1).1 h
    by_cases hob : o = b
    · subst hob
      obtain rfl : A = B := by rw [hA] at hB; exact Option.some.inj hB
      exact ⟨⟨A._stream, A._id, 0⟩, by simp [actor, Op.isDtor, Op.self],
        by simp [logState, Op.isDtor, peek, Op.text]⟩
    · have hbo : b ≠ o := fun e => hob e.symm
      exact ⟨A, by simp [actor, Op.isDtor, Op.self, hA, hbo],
        by simp [logState, Op.isDtor, peek, hp, Op.text, hob]⟩
  | invoke b c =>
    obtain ⟨-, A, hA, -, rfl⟩ := (invoke_ok_iff env b c s s1).1 h
    exact ⟨A, by simp [actor, Op.isDtor, Op.self, hA], by simp [logState, Op.isDtor, peek, Op.text]⟩

/-- The acting object of an operation that returns is bound to the stream that
belongs to the kind of the operation. -/
theorem exec_stream (env : Env) (op : Op) (s s1 : State) (h : exec env op s = Res.ok () s1)
    (r : Reporter) (hr : actor op s s1 = some r) : op.stream s = some r._stream := by
  cases op with
  | ctorDefault b a =>
    obtain ⟨-, -, -, rfl⟩ := (ctorDefault_ok_iff env b a s s1).1 h
    simp [actor, Op.isDtor, Op.self] at hr
    simp [Op.stream, ← hr]
  | ctorStream b st a =>
    obtain ⟨-, -, -, rfl⟩ := (ctorStream_ok_iff env b st a s s1).1 h
    simp [actor, Op.isDtor, Op.self] at hr
    simp [Op.stream, ← hr]
  | ctorCopy b o a =>
    obtain ⟨-, -, -, A, v, hA, -, -, rfl⟩ := (ctorCopy_ok_iff env b o a s s1).1 h
    simp [actor, Op.isDtor, Op.self] at hr
    simp [Op.stream, ← hr, hA]
  | ctorMove b o =>
    obtain ⟨-, hb, A, hA, -, rfl⟩ := (ctorMove_ok_iff env b o s s1).1 h
    have hne : b ≠ o := by rintro rfl; rw [hb] at hA; cases hA
    simp [actor, Op.isDtor, Op.self, hne] at hr
    simp [Op.stream, ← hr, hA]
  | dtor b =>
    simp [actor, Op.isDtor, Op.self] at hr
    simp [Op.stream, hr]
  | assignCopy b o =>
    obtain ⟨-, A, B, v, hA, -, -, -, -, -, rfl⟩ := (assignCopy_ok_iff env b o s s1).1 h
    simp [actor, Op.isDtor, Op.self] at hr
    simp [Op.stream, hr]
  | assignMove b o =>
    obtain ⟨-, A, B, v, hA, hB, -, -, -, -, rfl⟩ := (assignMove_ok_iff env b o s s1).1 h
    by_cases hob : o = b
    · subst hob
      simp [actor, Op.isDtor, Op.self] at hr
      simp [Op.stream, ← hr, hB]
    · have hbo : b ≠ o := fun e => hob e.symm
      simp [actor, Op.isDtor, Op.self, hbo] at hr
      simp [Op.stream, hr]
  | invoke b c =>
    obtain ⟨-, A, hA, -, rfl⟩ := (invoke_ok_iff env b c s s1).1 h
    simp [actor, Op.isDtor, Op.self] at hr
    simp [Op.stream, hr]

/-- Over a run that returns, one stream is written for each operation, and every
stream has grown by as many lines as the number of times it was written. -/
theorem run_lines (env : Env) (ops : List Op) :
    ∀ s s2, run env ops s = Res.ok () s2 →
      (writtenStreams env ops s).length = ops.length ∧
      ∀ k, (s2.streams k).length = (s.streams k).length + (writtenStreams env ops s).count k := by
  induction ops with
  | nil =>
    intro s s2 h
    rw [run_nil_ok] at h; subst h
    simp [writtenStreams]
  | cons op ops ih =>
    intro s s2 h
    obtain ⟨s1, h1, h2⟩ := (run_cons_ok env op ops s s2).1 h
    obtain ⟨r, hr, hs⟩ := exec_line env op s s1 h1
    obtain ⟨ihl, ihc⟩ := ih s1 s2 h2
    refine ⟨by simp [writtenStreams, h1, hr, ihl], ?_⟩
    intro k
    rw [ihc k, hs]
    simp only [writtenStreams, h1, hr, List.singleton_append, List.count_cons,
      Function.update_apply]
    by_cases hk : k = r._stream
    · subst hk; simp; omega
    · have hk2 : ¬ (r._stream == k) = true := by
        simp; exact fun e => hk e.symm
      simp [hk, hk2]

theorem operationTags_nodup : operationTags.Nodup := by decide

theorem op_text_index (op : Op) :
    op.index < 19 ∧ operationTags[op.index]? = some op.text := by
  cases op with
  | invoke h c => cases c <;> exact ⟨by simp [Op.index, Call.index], rfl⟩
  | _ => exact ⟨by simp [Op.index], rfl⟩

/-! ## The mutex after a fault -/

/-- Only an operation entered with the mutex free returns. -/
theorem exec_entry_unlocked (env : Env) (op : Op) (s s1 : State)
    (h : exec env op s = Res.ok () s1) : s.locked = false := by
  cases op with
  | ctorDefault b a => exact ((ctorDefault_ok_iff env b a s s1).1 h).1
  | ctorStream b st a => exact ((ctorStream_ok_iff env b st a s s1).1 h).1
  | ctorCopy b o a => exact ((ctorCopy_ok_iff env b o a s s1).1 h).1
  | ctorMove b o => exact ((ctorMove_ok_iff env b o s s1).1 h).1
  | dtor b => exact ((dtor_ok_iff env b s s1).1 h).1
  | assignCopy b o => exact ((assignCopy_ok_iff env b o s s1).1 h).1
  | assignMove b o => exact ((assignMove_ok_iff env b o s s1).1 h).1
  | invoke b c => exact ((invoke_ok_iff env b c s s1).1 h).1

/-- Default construction whose allocation throws stops at `new`: the counter is
incremented and the mutex held, nothing else has changed. -/
theorem ctorDefault_badAlloc (env : Env) (h : Nat) (s : State)
    (hl : s.locked = false) (hh : s.objs h = none) :
    ctorDefault env h 0 s = Res.fault Fault.badAlloc
      { counter := (s.counter + 1) % sizeMod, locked := true, heap := s.heap,
        objs := s.objs, streams := s.streams } := by
  have hobjs : Function.update s.objs h none = s.objs := by
    rw [← hh]; exact Function.update_eq_self h s.objs
  simp [ctorDefault, bind_apply, construct, abandonOnFault, mutexLock, preIncCounter, setId,
    opNew, hl, hh, hobjs]

/-- Copy construction whose allocation throws stops at `operator new`, before
`*other._ptr` is read, whatever the pointer of the source: the counter is
incremented and the mutex held, nothing else has changed. -/
theorem ctorCopy_badAlloc (env : Env) (h other : Nat) (s : State) (A : Reporter)
    (hl : s.locked = false) (hh : s.objs h = none) (hA : s.objs other = some A) :
    ctorCopy env h other 0 s = Res.fault Fault.badAlloc
      { counter := (s.counter + 1) % sizeMod, locked := true, heap := s.heap,
        objs := s.objs, streams := s.streams } := by
  have hne : other ≠ h := by rintro rfl; rw [hh] at hA; cases hA
  have hobjs : Function.update s.objs h none = s.objs := by
    rw [← hh]; exact Function.update_eq_self h s.objs
  simp [ctorCopy, bind_apply, getObj, construct, abandonOnFault, mutexLock, preIncCounter, setId,
    opAlloc, hl, hh, hA, hne, hobjs]

/-! ## The driver -/

theorem res_eq_ok_state (r : Res Unit) (h : r.isOk = true) : r = Res.ok () r.state := by
  cases r with
  | ok u s => rfl
  | fault f s => cases h

/-- The run of the driver, statement by statement: it returns, and leaves these
fifteen lines on `std::clog` and nothing on any other stream. -/
theorem main_run (env : Env) (a1 a2 a3 a5 : Nat)
    (h1 : a1 ≠ 0) (h2 : a2 ≠ 0) (h3 : a3 ≠ 0) (h5 : a5 ≠ 0)
    (h12 : a1 ≠ a2) (h13 : a1 ≠ a3) (h15 : a1 ≠ a5) (h23 : a2 ≠ a3) (h25 : a2 ≠ a5)
    (h35 : a3 ≠ a5) :
    (run env (mainOps a1 a2 a3 a5) State.init).isOk = true ∧
    (run env (mainOps a1 a2 a3 a5) State.init).state.streams 0 =
      [ lineOf env 1 a1 1 "reporter::reporter()",
        lineOf env 2 a2 1 "reporter::reporter(const reporter&)",
        lineOf env 3 a3 1 "reporter::reporter(const reporter&)",
        lineOf env 4 a1 1 "reporter::reporter(reporter&&)",
        lineOf env 5 a5 5 "reporter::reporter()",
        lineOf env 1 0 0 "void reporter::operator()() &",
        lineOf env 2 a2 1 "void reporter::operator()() &",
        lineOf env 3 a3 1 "void reporter::operator()() &",
        lineOf env 4 a1 1 "void reporter::operator()() &",
        lineOf env 5 a5 5 "void reporter::operator()() &",
        lineOf env 5 a5 5 "reporter::~reporter()",
        lineOf env 4 a1 1 "reporter::~reporter()",
        lineOf env 3 a3 1 "reporter::~reporter()",
        lineOf env 2 a2 1 "reporter::~reporter()",
        lineOf env 1 0 0 "reporter::~reporter()" ] ∧
    (∀ k, k ≠ 0 → (run env (mainOps a1 a2 a3 a5) State.init).state.streams k = []) ∧
    (∀ c, (run env (mainOps a1 a2 a3 a5) State.init).state.heap c = none) ∧
    (run env (mainOps a1 a2 a3 a5) State.init).state.counter = 5 := by
  refine ⟨?_, ?_, ?_, ?_, ?_⟩
  · simp [mainOps, run, exec, bind_apply, pure_apply, ctorDefault, ctorCopy, ctorMove, dtor,
      dtorTrace, stmt, expr, tbind_apply, tpure_apply, opAlloc, opInit,
      invoke, getObj, construct, abandonOnFault, mutexLock, preIncCounter, setId, setPtr, _log,
      write, mutexUnlock, load, store, opNew, opDelete, endLifetime, State.init, Res.isOk,
      h1, h2, h3, h5, h12, h13, h15, h23, h25, h35, h12.symm, h13.symm, h15.symm, h23.symm,
      h25.symm, h35.symm, sizeMod, ushortMod, Call.text]
  · simp [mainOps, run, exec, bind_apply, pure_apply, ctorDefault, ctorCopy, ctorMove, dtor,
      dtorTrace, stmt, expr, tbind_apply, tpure_apply, opAlloc, opInit,
      invoke, getObj, construct, abandonOnFault, mutexLock, preIncCounter, setId, setPtr, _log,
      write, mutexUnlock, load, store, opNew, opDelete, endLifetime, State.init, Res.state,
      h1, h2, h3, h5, h12, h13, h15, h23, h25, h35, h12.symm, h13.symm, h15.symm, h23.symm,
      h25.symm, h35.symm, sizeMod, ushortMod, Call.text, lineOf]
  · intro k hk
    simp [mainOps, run, exec, bind_apply, pure_apply, ctorDefault, ctorCopy, ctorMove, dtor,
      dtorTrace, stmt, expr, tbind_apply, tpure_apply, opAlloc, opInit,
      invoke, getObj, construct, abandonOnFault, mutexLock, preIncCounter, setId, setPtr, _log,
      write, mutexUnlock, load, store, opNew, opDelete, endLifetime, State.init, Res.state,
      h1, h2, h3, h5, h12, h13, h15, h23, h25, h35, h12.symm, h13.symm, h15.symm, h23.symm,
      h25.symm, h35.symm, sizeMod, ushortMod, Call.text, hk]
  · intro c
    simp [mainOps, run, exec, bind_apply, pure_apply, ctorDefault, ctorCopy, ctorMove, dtor,
      dtorTrace, stmt, expr, tbind_apply, tpure_apply, opAlloc, opInit,
      invoke, getObj, construct, abandonOnFault, mutexLock, preIncCounter, setId, setPtr, _log,
      write, mutexUnlock, load, store, opNew, opDelete, endLifetime, State.init, Res.state,
      h1, h2, h3, h5, h12, h13, h15, h23, h25, h35, h12.symm, h13.symm, h15.symm, h23.symm,
      h25.symm, h35.symm, sizeMod, ushortMod, Call.text, Function.update_apply]
    intro e2 e3 e1 _
    simp [e1, e2, e3]
  · simp [mainOps, run, exec, bind_apply, pure_apply, ctorDefault, ctorCopy, ctorMove, dtor,
      dtorTrace, stmt, expr, tbind_apply, tpure_apply, opAlloc, opInit,
      invoke, getObj, construct, abandonOnFault, mutexLock, preIncCounter, setId, setPtr, _log,
      write, mutexUnlock, load, store, opNew, opDelete, endLifetime, State.init, Res.state,
      h1, h2, h3, h5, h12, h13, h15, h23, h25, h35, h12.symm, h13.symm, h15.symm, h23.symm,
      h25.symm, h35.symm, sizeMod, ushortMod, Call.text]

end ReporterModel

/-! ## The claims -/

namespace ReporterModel

/-- C1: from counter 0, in a run of operations that all return, with fewer than
2^64 constructions, the k-th construction assigns the id k (position `k` of
the ids, counted from 0, holds `k + 1`) and the counter ends at the number of
constructions; within the run every constructor raises the counter by exactly
1 and every other operation leaves it alone; no operation changes the id of
an object that stays alive; hence the ids are strictly increasing in the
order of construction and pairwise distinct. -/
theorem C1_ids_follow_construction_order (env : Env) (ops : List Op) (s s2 : State)
    (h0 : s.counter = 0) (hrun : run env ops s = Res.ok () s2)
    (hk : constructions ops < 2 ^ 64) :
    (∀ k, k < constructions ops → (assignedIds env ops s)[k]? = some (k + 1)) ∧
    (assignedIds env ops s).length = constructions ops ∧
    s2.counter = constructions ops ∧
    (∀ pre op post t t1, ops = pre ++ op :: post → run env pre s = Res.ok () t →
      exec env op t = Res.ok () t1 →
      t1.counter = if op.isCtor then t.counter + 1 else t.counter) ∧
    (∀ op t t1 k r, exec env op t = Res.ok () t1 → t.objs k = some r →
      t1.objs k = none ∨ ∃ r1, t1.objs k = some r1 ∧ r1._id = r._id) ∧
    (assignedIds env ops s).Pairwise (· < ·) ∧
    (assignedIds env ops s).Nodup := by
  have hsz : sizeMod = 2 ^ 64 := rfl
  obtain ⟨hids, hcnt⟩ := run_ids env ops s s2 hrun (by rw [h0, hsz]; omega)
  rw [h0] at hids hcnt
  simp only [Nat.zero_add] at hids hcnt
  refine ⟨?_, ?_, hcnt, ?_, ?_, ?_, ?_⟩
  · intro k hk'
    rw [hids, List.getElem?_range' _ _ hk']
    simp [Nat.add_comm]
  · rw [hids]; simp
  · intro pre op post t t1 hsplit hpre hop
    subst hsplit
    obtain ⟨t', ht', hrest⟩ := (run_append_ok env pre (op :: post) s s2).1 hrun
    rw [constructions_append, constructions_cons] at hk
    obtain ⟨-, hpc⟩ := run_ids env pre s t hpre (by rw [h0, hsz]; omega)
    obtain ⟨hc, hn⟩ := exec_counter env op t t1 hop
    cases hop' : op.isCtor with
    | true =>
      simp only [hop', if_true] at hk ⊢
      rw [(hc hop').1, Nat.mod_eq_of_lt (by rw [hpc, h0, hsz]; omega)]
    | false => simpa using hn hop'
  · intro op t t1 k r hop hk'
    rcases exec_id_stable env op t t1 hop k r hk' with h | ⟨r1, h1, h2, -⟩
    · exact Or.inl h
    · exact Or.inr ⟨r1, h1, h2⟩
  · rw [hids]; exact List.pairwise_lt_range' 1 _
  · rw [hids]; exact List.nodup_range' 1 _

/-- C1 on the run `reporter<> r1; reporter<> r2;` from the start of the program:
the second construction assigns the id 2. -/
theorem C1_ids_follow_construction_order_witness :
    State.init.counter = 0 ∧
    run sampleEnv [Op.ctorDefault 1 100, Op.ctorDefault 2 200] State.init = Res.ok () sampleState ∧
    constructions [Op.ctorDefault 1 100, Op.ctorDefault 2 200] < 2 ^ 64 ∧
    (assignedIds sampleEnv [Op.ctorDefault 1 100, Op.ctorDefault 2 200] State.init)[1]? = some 2 :=
  ⟨rfl, sample_run, by decide,
    (C1_ids_follow_construction_order sampleEnv _ State.init sampleState rfl sample_run
      (by decide)).1 1 (by decide)⟩

/-- C2: in every reachable state no two distinct live objects hold the same
non-null pointer, every non-null pointer of a live object points to an
allocated cell, and destroying any live objects in any order returns. -/
theorem C2_exclusive_ownership (env : Env) (s : State) (hr : Reachable env s) :
    (∀ h1 h2 r1 r2, s.objs h1 = some r1 → s.objs h2 = some r2 → h1 ≠ h2 →
      r1._ptr ≠ 0 → r1._ptr ≠ r2._ptr) ∧
    (∀ h r, s.objs h = some r → r._ptr ≠ 0 → ∃ v, s.heap r._ptr = some v) ∧
    (∀ hs : List Nat, hs.Nodup → (∀ h ∈ hs, ∃ r, s.objs h = some r) →
      ∃ s2, run env (hs.map Op.dtor) s = Res.ok () s2 ∧
        (∀ k, s2.objs k = if k ∈ hs then none else s.objs k) ∧
        (∀ h ∈ hs, ∀ r, s.objs h = some r → r._ptr ≠ 0 → s2.heap r._ptr = none) ∧
        (∀ c, s.heap c = none → s2.heap c = none)) := by
  obtain ⟨ops, hsteps⟩ := hr
  have hO : Owned s := steps_owned env _ _ _ hsteps owned_init
  refine ⟨?_, hO.allocated, fun hs hnd hlive => dtor_all env hs s hO hnd hlive⟩
  intro h1 h2 r1 r2 e1 e2 hne hn he
  exact hne (hO.exclusive h1 h2 r1 r2 e1 e2 hn he)

/-- C2 at `sampleState`: it is reachable, and destroying object 1 and then
object 2 returns and frees both cells. -/
theorem C2_exclusive_ownership_witness :
    Reachable sampleEnv sampleState ∧
    ∃ s2, run sampleEnv [Op.dtor 1, Op.dtor 2] sampleState = Res.ok () s2 ∧
      s2.heap 100 = none ∧ s2.heap 200 = none := by
  have hr : Reachable sampleEnv sampleState := ⟨_, sample_steps⟩
  refine ⟨hr, ?_⟩
  obtain ⟨s2, h1, -, h3, -⟩ := (C2_exclusive_ownership sampleEnv sampleState hr).2.2 [1, 2]
    (by decide) (by
      intro h hh
      rcases List.mem_cons.1 hh with rfl | hh
      · exact ⟨_, sample_obj1⟩
      · rcases List.mem_cons.1 hh with rfl | hh
        · exact ⟨_, sample_obj2⟩
        · cases hh)
  exact ⟨s2, h1, h3 1 (by simp) _ sample_obj1 (by decide), h3 2 (by simp) _ sample_obj2 (by decide)⟩

/-- The counterexample to C3 as stated: in `wrapState2` the move construction of
object 3 from object 2, which holds 65536, gives the new object the id 65537,
and the line it writes shows the id 1 and the value 0. -/
theorem C3_counterexample :
    ∃ s1 B l, ctorMove sampleEnv 3 2 wrapState2 = Res.ok () s1 ∧
      s1.objs 3 = some B ∧ B._id = wrapState2.counter + 1 ∧ B._id = 65537 ∧ B._ptr = 200 ∧
      s1.heap 200 = some 65536 ∧
      s1.streams 0 = [l] ∧ l.id = 1 ∧ l.ptr = 200 ∧ l.value = 0 :=
  ⟨_, ⟨0, 65537, 200⟩, ⟨7, 9, 1, 200, 0, "reporter::reporter(reporter&&)"⟩,
    (ctorMove_ok_iff sampleEnv 3 2 wrapState2 _).2
      ⟨rfl, rfl, ⟨0, 65536, 200⟩, rfl, Or.inr ⟨65536, rfl⟩, rfl⟩,
    rfl, by decide, rfl, rfl, rfl, rfl, rfl, rfl, rfl⟩

/-- C3 (amended): move construction of `b` from a live `a` whose pointer `p` is
null or valid returns; `b` gets the id `(counter + 1) mod 2^64`, the pointer
`p` and the stream of `a`; `a` keeps its id and its pointer becomes null; no
other object and no cell changes; exactly one line is written, to that
stream, and it shows the new id modulo 65536, the address `p` and the value
stored at `p` modulo 65536 (0 if `p` is null). -/
theorem C3_move_construction (env : Env) (s : State) (a b : Nat) (A : Reporter)
    (hl : s.locked = false) (hA : s.objs a = some A) (hb : s.objs b = none)
    (hp : Readable s A._ptr) :
    ∃ s1 l, ctorMove env b a s = Res.ok () s1 ∧
      s1.counter = (s.counter + 1) % sizeMod ∧
      (s.counter + 1 < sizeMod → s1.counter = s.counter + 1) ∧
      s1.objs b = some ⟨A._stream, s1.counter, A._ptr⟩ ∧
      s1.objs a = some ⟨A._stream, A._id, 0⟩ ∧
      (∀ k, k ≠ a → k ≠ b → s1.objs k = s.objs k) ∧
      s1.heap = s.heap ∧
      s1.locked = false ∧
      s1.streams A._stream = s.streams A._stream ++ [l] ∧
      (∀ k, k ≠ A._stream → s1.streams k = s.streams k) ∧
      l.id = s1.counter % ushortMod ∧
      l.ptr = A._ptr ∧
      l.value = peek s A._ptr % ushortMod ∧
      l.text = "reporter::reporter(reporter&&)" ∧
      (s1.counter < ushortMod → l.id = s1.counter) ∧
      (peek s A._ptr < ushortMod → l.value = peek s A._ptr) := by
  have hne : b ≠ a := by rintro rfl; rw [hb] at hA; cases hA
  refine ⟨_, lineOf env ((s.counter + 1) % sizeMod) A._ptr (peek s A._ptr)
      "reporter::reporter(reporter&&)",
    (ctorMove_ok_iff env b a s _).2 ⟨hl, hb, A, hA, hp, rfl⟩, rfl, ?_, ?_, ?_, ?_,
    rfl, rfl, ?_, ?_, rfl, rfl, rfl, rfl, ?_, ?_⟩
  · intro h; exact Nat.mod_eq_of_lt h
  · simp [hne]
  · simp
  · intro k hka hkb; simp [hka, hkb]
  · simp
  · intro k hk; simp [hk]
  · intro h; exact Nat.mod_eq_of_lt h
  · intro h; exact Nat.mod_eq_of_lt h

/-- C3 (amended) at `sampleState`: move construction of object 3 from object 1. -/
theorem C3_move_construction_witness :
    sampleState.locked = false ∧ sampleState.objs 1 = some ⟨0, 1, 100⟩ ∧
    sampleState.objs 3 = none ∧ Readable sampleState 100 ∧
    ∃ (s1 : State) (l : Line), ctorMove sampleEnv 3 1 sampleState = Res.ok () s1 ∧
      s1.objs 3 = some ⟨0, 3, 100⟩ ∧ s1.objs 1 = some ⟨0, 1, 0⟩ ∧
      s1.streams 0 = sampleState.streams 0 ++ [l] ∧ l.id = 3 ∧ l.ptr = 100 ∧ l.value = 1 := by
  refine ⟨rfl, rfl, rfl, Or.inr ⟨1, rfl⟩, ?_⟩
  obtain ⟨s1, l, h1, h2, -, h4, h5, -, -, -, h9, -, h11, h12, h13, -⟩ :=
    C3_move_construction sampleEnv sampleState 1 3 ⟨0, 1, 100⟩ rfl rfl rfl (Or.inr ⟨1, rfl⟩)
  have hc : s1.counter = 3 := h2
  rw [hc] at h4 h11
  exact ⟨s1, l, h1, h4, h5, h9, h11, h12, h13⟩

/-- C4: after a move construction from the valid object `a`, or a move assignment
from `a` to another valid object, `a` is invalidated; from then on, whatever
operations return in between (short of destroying `a`), every overload of
`operator()` on `a` returns and writes a line with address 0 and value 0 and
changes nothing else, and the destructor of `a` returns, writes such a line
and leaves the heap as it is. -/
theorem C4_move_invalidation (env : Env) (s : State) (a : Nat) (A : Reporter) (v : Nat)
    (hl : s.locked = false) (hval : Valid s a A v) :
    (∀ b, s.objs b = none →
      ∃ s1, ctorMove env b a s = Res.ok () s1 ∧ s1.locked = false ∧ Invalidated s1 a A._id) ∧
    (∀ b B w, b ≠ a → Valid s b B w →
      ∃ s1, assignMove env b a s = Res.ok () s1 ∧ s1.locked = false ∧
        Invalidated s1 a A._id) ∧
    (∀ s1, s1.locked = false → Invalidated s1 a A._id →
      ∀ ops s2, run env ops s1 = Res.ok () s2 → Op.dtor a ∉ ops →
        ∃ r, s2.objs a = some r ∧ r._ptr = 0 ∧ r._id = A._id ∧
          (∀ c, ∃ l, invoke env a c s2 = Res.ok () (s2.emit r._stream l) ∧
            l.ptr = 0 ∧ l.value = 0 ∧ l.id = A._id % ushortMod ∧ l.text = c.text) ∧
          (∃ s3 l, dtor env a s2 = Res.ok () s3 ∧ s3.heap = s2.heap ∧
            s3.streams r._stream = s2.streams r._stream ++ [l] ∧
            (∀ k, k ≠ r._stream → s3.streams k = s2.streams k) ∧
            l.ptr = 0 ∧ l.value = 0 ∧ l.id = A._id % ushortMod ∧
            l.text = "reporter::~reporter()")) := by
  obtain ⟨hA, hp, hv⟩ := hval
  refine ⟨?_, ?_, ?_⟩
  · intro b hb
    have hne : b ≠ a := by rintro rfl; rw [hb] at hA; cases hA
    exact ⟨_, (ctorMove_ok_iff env b a s _).2 ⟨hl, hb, A, hA, Or.inr ⟨v, hv⟩, rfl⟩, rfl,
      ⟨A._stream, A._id, 0⟩, by simp, rfl, rfl⟩
  · intro b B w hne ⟨hB, hq, hw⟩
    exact ⟨_, (assignMove_ok_iff env b a s _).2
      ⟨hl, B, A, v, hB, hA, hp, hv, hq, ⟨w, hw⟩, rfl⟩, rfl,
      ⟨A._stream, A._id, 0⟩, by simp, rfl, rfl⟩
  · intro s1 hl1 hi ops s2 hrun hnot
    obtain ⟨hl2, r, hr, hp2, hid⟩ := run_invalidated env ops a A._id s1 s2 hrun hl1 hi hnot
    refine ⟨r, hr, hp2, hid, ?_, ?_⟩
    · intro c
      refine ⟨lineOf env r._id r._ptr (peek s2 r._ptr) c.text,
        (invoke_ok_iff env a c s2 _).2 ⟨hl2, r, hr, Or.inl hp2, ?_⟩, hp2, ?_, ?_, rfl⟩
      · simp [State.emit, hl2]
      · simp [lineOf, peek, hp2, ushortMod]
      · simp [lineOf, hid]
    · refine ⟨_, lineOf env r._id r._ptr (peek s2 r._ptr) "reporter::~reporter()",
        (dtor_ok_iff env a s2 _).2 ⟨hl2, r, hr, Or.inl hp2, rfl⟩, ?_, ?_, ?_, hp2, ?_, ?_, rfl⟩
      · simp [hp2]
      · simp
      · intro k hk; simp [hk]
      · simp [lineOf, peek, hp2, ushortMod]
      · simp [lineOf, hid]

/-- C4 at `sampleState`: move construction of object 3 from object 1 leaves
object 1 invalidated. -/
theorem C4_move_invalidation_witness :
    sampleState.locked = false ∧ Valid sampleState 1 ⟨0, 1, 100⟩ 1 ∧
    ∃ s1, ctorMove sampleEnv 3 1 sampleState = Res.ok () s1 ∧ s1.locked = false ∧
      Invalidated s1 1 1 :=
  ⟨rfl, ⟨rfl, by decide, rfl⟩,
    (C4_move_invalidation sampleEnv sampleState 1 ⟨0, 1, 100⟩ 1 rfl ⟨rfl, by decide, rfl⟩).1 3 rfl⟩

/-- The counterexample to C5 as stated: in `wrapState2` the copy construction of
object 3 from object 2, which holds 65536, gives the new object the id 65537
and the value 65536, and the line it writes shows the id 1 and the value 0. -/
theorem C5_counterexample :
    ∃ s1 B l, ctorCopy sampleEnv 3 2 300 wrapState2 = Res.ok () s1 ∧
      s1.objs 3 = some B ∧ B._id = wrapState2.counter + 1 ∧ B._id = 65537 ∧ B._ptr = 300 ∧
      s1.heap 300 = some 65536 ∧
      s1.streams 0 = [l] ∧ l.id = 1 ∧ l.ptr = 300 ∧ l.value = 0 :=
  ⟨_, ⟨0, 65537, 300⟩, ⟨7, 9, 1, 300, 0, "reporter::reporter(const reporter&)"⟩,
    (ctorCopy_ok_iff sampleEnv 3 2 300 wrapState2 _).2
      ⟨rfl, rfl, by decide, ⟨0, 65536, 200⟩, 65536, rfl, by decide, Or.inl rfl, rfl⟩,
    rfl, by decide, rfl, rfl, rfl, rfl, rfl, rfl, rfl⟩

/-- C5 (amended): copy construction of `b` from a valid `a`, with a fresh cell,
returns; `b` gets the id `(counter + 1) mod 2^64` (different from the id of `a`
when that is at most the old counter and the counter does not wrap), the
stream of `a`, and the fresh cell, which differs from the cell of `a` and
holds the value of `a`; `a`, every other object and every other cell are
unchanged; exactly one line is written, to that stream, and it shows the new
id modulo 65536, the new address and the copied value modulo 65536. -/
theorem C5_copy_construction (env : Env) (s : State) (a b cell : Nat) (A : Reporter) (v : Nat)
    (hl : s.locked = false) (hval : Valid s a A v) (hb : s.objs b = none)
    (hcell : cell ≠ 0) (hfresh : s.heap cell = none) :
    ∃ s1 l, ctorCopy env b a cell s = Res.ok () s1 ∧
      s1.counter = (s.counter + 1) % sizeMod ∧
      (s.counter + 1 < sizeMod → s1.counter = s.counter + 1) ∧
      (s.counter + 1 < sizeMod → A._id ≤ s.counter → s1.counter ≠ A._id) ∧
      s1.objs b = some ⟨A._stream, s1.counter, cell⟩ ∧
      cell ≠ A._ptr ∧
      s1.heap cell = some v ∧
      s1.objs a = some A ∧
      s1.heap A._ptr = some v ∧
      (∀ k, k ≠ b → s1.objs k = s.objs k) ∧
      (∀ c, c ≠ cell → s1.heap c = s.heap c) ∧
      s1.locked = false ∧
      s1.streams A._stream = s.streams A._stream ++ [l] ∧
      (∀ k, k ≠ A._stream → s1.streams k = s.streams k) ∧
      l.id = s1.counter % ushortMod ∧
      l.ptr = cell ∧
      l.value = v % ushortMod ∧
      l.text = "reporter::reporter(const reporter&)" ∧
      (s1.counter < ushortMod → l.id = s1.counter) ∧
      (v < ushortMod → l.value = v) := by
  obtain ⟨hA, hp, hv⟩ := hval
  have hne : a ≠ b := by rintro rfl; rw [hb] at hA; cases hA
  have hca : cell ≠ A._ptr := by rintro rfl; rw [hfresh] at hv; cases hv
  refine ⟨_, lineOf env ((s.counter + 1) % sizeMod) cell v "reporter::reporter(const reporter&)",
    (ctorCopy_ok_iff env b a cell s _).2 ⟨hl, hb, hcell, A, v, hA, hp, Or.inl hv, rfl⟩, rfl,
    ?_, ?_, ?_, hca, ?_, ?_, ?_, ?_, ?_, rfl, ?_, ?_, rfl, rfl, rfl, rfl, ?_, ?_⟩
  · intro h; exact Nat.mod_eq_of_lt h
  · intro h hle
    show (s.counter + 1) % sizeMod ≠ A._id
    rw [Nat.mod_eq_of_lt h]; omega
  · simp
  · simp
  · simp [hne, hA]
  · simp [hca.symm, hv]
  · intro k hk; simp [hk]
  · intro c hc; simp [hc]
  · simp
  · intro k hk; simp [hk]
  · intro h; exact Nat.mod_eq_of_lt h
  · intro h; exact Nat.mod_eq_of_lt h

/-- C5 (amended) at `sampleState`: copy construction of object 3 from object 1
with the fresh cell 300. -/
theorem C5_copy_construction_witness :
    sampleState.locked = false ∧ Valid sampleState 1 ⟨0, 1, 100⟩ 1 ∧
    sampleState.objs 3 = none ∧ 300 ≠ 0 ∧ sampleState.heap 300 = none ∧
    ∃ (s1 : State) (l : Line), ctorCopy sampleEnv 3 1 300 sampleState = Res.ok () s1 ∧
      s1.objs 3 = some ⟨0, 3, 300⟩ ∧ s1.heap 300 = some 1 ∧ s1.objs 1 = some ⟨0, 1, 100⟩ ∧
      s1.streams 0 = sampleState.streams 0 ++ [l] ∧ l.id = 3 ∧ l.ptr = 300 ∧ l.value = 1 := by
  refine ⟨rfl, ⟨rfl, by decide, rfl⟩, rfl, by decide, rfl, ?_⟩
  obtain ⟨s1, l, h1, h2, -, -, h5, -, h7, h8, -, -, -, -, h13, -, h15, h16, h17, -⟩ :=
    C5_copy_construction sampleEnv sampleState 1 3 300 ⟨0, 1, 100⟩ 1 rfl ⟨rfl, by decide, rfl⟩
      rfl (by decide) rfl
  have hc : s1.counter = 3 := h2
  rw [hc] at h5 h15
  exact ⟨s1, l, h1, h5, h7, h8, h13, h15, h16, h17⟩

/-- C6: a copy `b` of `a` keeps its pointer, its id and its stored value, the value
`a` held when `b` was constructed, when `a` is then copy-assigned from any
valid object `c`. -/
theorem C6_copy_independence (env : Env) (s : State) (a b cell : Nat) (A : Reporter) (v : Nat)
    (hl : s.locked = false) (hval : Valid s a A v) (hb : s.objs b = none)
    (hcell : cell ≠ 0) (hfresh : s.heap cell = none) :
    ∃ s1 B, ctorCopy env b a cell s = Res.ok () s1 ∧ Valid s1 b B v ∧
      ∀ c C w, Valid s1 c C w →
        ∃ s2, assignCopy env a c s1 = Res.ok () s2 ∧
          Valid s2 b B v ∧ peek s2 B._ptr = v ∧ Valid s2 a A w := by
  obtain ⟨hA, hp, hv⟩ := hval
  have hne : a ≠ b := by rintro rfl; rw [hb] at hA; cases hA
  have hca : cell ≠ A._ptr := by rintro rfl; rw [hfresh] at hv; cases hv
  refine ⟨_, ⟨A._stream, (s.counter + 1) % sizeMod, cell⟩,
    (ctorCopy_ok_iff env b a cell s _).2 ⟨hl, hb, hcell, A, v, hA, hp, Or.inl hv, rfl⟩,
    ⟨by simp, hcell, by simp⟩, ?_⟩
  intro c C w ⟨hC, hq, hw⟩
  refine ⟨_, (assignCopy_ok_iff env a c _ _).2
    ⟨rfl, A, C, w, by simp [hne, hA], hC, hq, hw, hp, ⟨v, by simp [hca.symm, hv]⟩, rfl⟩,
    ⟨by simp, hcell, by simp [hca]⟩, by simp [peek, hcell, hca],
    ⟨by simp [hne, hA], hp, by simp⟩⟩

/-- C6 at `sampleState`: object 3 is copied from object 1, then object 1 is
copy-assigned from any valid object. -/
theorem C6_copy_independence_witness :
    sampleState.locked = false ∧ Valid sampleState 1 ⟨0, 1, 100⟩ 1 ∧
    sampleState.objs 3 = none ∧ 300 ≠ 0 ∧ sampleState.heap 300 = none ∧
    ∃ s1 B, ctorCopy sampleEnv 3 1 300 sampleState = Res.ok () s1 ∧ Valid s1 3 B 1 ∧
      ∀ c C w, Valid s1 c C w →
        ∃ s2, assignCopy sampleEnv 1 c s1 = Res.ok () s2 ∧
          Valid s2 3 B 1 ∧ peek s2 B._ptr = 1 ∧ Valid s2 1 ⟨0, 1, 100⟩ w :=
  ⟨rfl, ⟨rfl, by decide, rfl⟩, rfl, by decide, rfl,
    C6_copy_independence sampleEnv sampleState 1 3 300 ⟨0, 1, 100⟩ 1 rfl ⟨rfl, by decide, rfl⟩
      rfl (by decide) rfl⟩

/-- The counterexample to C7 as stated: object 2 of `wrapState2` has the id 65536
and holds the value 65536; the line its destructor writes shows the id 0
and the value 0. -/
theorem C7_counterexample :
    ∃ s1 l, dtor sampleEnv 2 wrapState2 = Res.ok () s1 ∧
      wrapState2.objs 2 = some ⟨0, 65536, 200⟩ ∧ wrapState2.heap 200 = some 65536 ∧
      s1.streams 0 = [l] ∧ l.id = 0 ∧ l.value = 0 :=
  ⟨_, ⟨7, 9, 0, 200, 0, "reporter::~reporter()"⟩,
    (dtor_ok_iff sampleEnv 2 wrapState2 _).2 ⟨rfl, ⟨0, 65536, 200⟩, rfl, Or.inr ⟨65536, rfl⟩, rfl⟩,
    rfl, rfl, rfl, rfl, rfl⟩

/-- C7 (amended): the destructor of a live object whose pointer is null or valid
returns.  Its first statement after `lock()` writes exactly one line, showing
the id modulo 65536, the pointer, and the value held before any mutation
modulo 65536.  If the pointer is not null, the statements executed after that
are, in this order, the store of 0 in the cell, the release of the cell, the
assignment of null to the pointer and `unlock()`; if the pointer is null only
`unlock()` is executed and the heap stays as it is. -/
theorem C7_destruction (env : Env) (s : State) (h : Nat) (A : Reporter)
    (hl : s.locked = false) (hA : s.objs h = some A) (hp : Readable s A._ptr) :
    ∃ (l : Line) (sLog sEnd : State),
      l.id = A._id % ushortMod ∧ l.ptr = A._ptr ∧ l.value = peek s A._ptr % ushortMod ∧
      l.text = "reporter::~reporter()" ∧
      (A._id < ushortMod → l.id = A._id) ∧ (peek s A._ptr < ushortMod → l.value = peek s A._ptr) ∧
      sLog = ({ s with locked := true } : State).emit A._stream l ∧
      dtor env h s = Res.ok () sEnd ∧
      sEnd.streams = sLog.streams ∧ sEnd.counter = s.counter ∧ sEnd.locked = false ∧
      sEnd.objs h = none ∧ (∀ k, k ≠ h → sEnd.objs k = s.objs k) ∧
      (A._ptr ≠ 0 → ∃ sZero sFree sNull sUnlock,
        (dtorTrace env h s).2 =
          [{ s with locked := true }, sLog, sZero, sFree, sNull, sUnlock, sEnd] ∧
        sZero = { sLog with heap := Function.update s.heap A._ptr (some 0) } ∧
        sZero.heap A._ptr = some 0 ∧
        sFree = { sZero with heap := Function.update s.heap A._ptr none } ∧
        sFree.heap A._ptr = none ∧
        sNull = { sFree with objs := Function.update s.objs h (some ⟨A._stream, A._id, 0⟩) } ∧
        sNull.objs h = some ⟨A._stream, A._id, 0⟩ ∧
        sUnlock = { sNull with locked := false } ∧
        sEnd = { sUnlock with objs := Function.update s.objs h none } ∧
        sEnd.heap A._ptr = none ∧ (∀ c, c ≠ A._ptr → sEnd.heap c = s.heap c)) ∧
      (A._ptr = 0 →
        (dtorTrace env h s).2 =
          [{ s with locked := true }, sLog, { sLog with locked := false }, sEnd] ∧
        sEnd.heap = s.heap) := by
  refine ⟨lineOf env A._id A._ptr (peek s A._ptr) "reporter::~reporter()", _, _, rfl, rfl, rfl,
    rfl, fun hh => Nat.mod_eq_of_lt hh, fun hh => Nat.mod_eq_of_lt hh, rfl,
    (dtor_ok_iff env h s _).2 ⟨hl, A, hA, hp, rfl⟩, ?_, rfl, rfl, ?_, ?_, ?_, ?_⟩
  · simp [State.emit]
  · simp
  · intro k hk; simp [hk]
  · intro hp0
    rcases hp with hp | ⟨v, hv⟩
    · exact absurd hp hp0
    · refine ⟨_, _, _, _, ?_, rfl, ?_, rfl, ?_, rfl, ?_, rfl, ?_, ?_, ?_⟩
      · simp [dtorTrace, stmt, expr, tbind_apply, tpure_apply, getObj, mutexLock, _log, write,
          mutexUnlock, load, bind_apply, pure_apply, endLifetime, store, opDelete, setPtr, hl, hA,
          hp0, lineOf, hv, State.emit, peek]
      · simp
      · simp
      · simp
      · simp [State.emit, hp0]
      · simp [hp0]
      · intro c hc; simp [hp0, hc]
  · intro hp0
    refine ⟨?_, by simp [hp0]⟩
    simp [dtorTrace, stmt, expr, tbind_apply, tpure_apply, getObj, mutexLock, _log, write,
      mutexUnlock, load, bind_apply, pure_apply, endLifetime, hl, hA, hp0, lineOf, State.emit,
      peek]

/-- C7 (amended) at `sampleState`: destruction of object 2. -/
theorem C7_destruction_witness :
    sampleState.locked = false ∧ sampleState.objs 2 = some ⟨0, 2, 200⟩ ∧
    Readable sampleState 200 ∧
    ∃ (l : Line) (sZero sFree sNull sEnd : State), l.id = 2 ∧ l.ptr = 200 ∧ l.value = 2 ∧
      (dtorTrace sampleEnv 2 sampleState).2.drop 2 = [sZero, sFree, sNull,
        { sNull with locked := false }, sEnd] ∧
      sZero.heap 200 = some 0 ∧ sFree.heap 200 = none ∧ sNull.objs 2 = some ⟨0, 2, 0⟩ ∧
      dtor sampleEnv 2 sampleState = Res.ok () sEnd ∧ sEnd.objs 2 = none ∧
      sEnd.heap 200 = none := by
  refine ⟨rfl, rfl, Or.inr ⟨2, rfl⟩, ?_⟩
  obtain ⟨l, sLog, sEnd, h1, h2, h3, -, -, -, -, h8, -, -, -, h12, -, h14, -⟩ :=
    C7_destruction sampleEnv sampleState 2 ⟨0, 2, 200⟩ rfl rfl (Or.inr ⟨2, rfl⟩)
  obtain ⟨sZero, sFree, sNull, sUnlock, t1, -, t3, -, t5, -, t7, t8, -, t10, -⟩ := h14 (by decide)
  refine ⟨l, sZero, sFree, sNull, sEnd, h1, h2, h3, ?_, t3, t5, t7, h8, h12, t10⟩
  rw [t1, t8]; rfl

/-- The counterexample to C8 as stated: copy assignment of object 1 of
`wrapState2` from object 2 stores 65536 in the cell of object 1, and the line
it writes shows the value 0; copy assignment of object 2, whose id is 65536,
from object 1 writes a line that shows the id 0. -/
theorem C8_counterexample :
    (∃ s1 l, assignCopy sampleEnv 1 2 wrapState2 = Res.ok () s1 ∧
      s1.heap 100 = some 65536 ∧ s1.streams 0 = [l] ∧ l.ptr = 100 ∧ l.value = 0) ∧
    (∃ s1 l, assignCopy sampleEnv 2 1 wrapState2 = Res.ok () s1 ∧
      s1.objs 2 = some ⟨0, 65536, 200⟩ ∧ s1.streams 0 = [l] ∧ l.ptr = 200 ∧ l.id = 0) :=
  ⟨⟨_, ⟨7, 9, 1, 100, 0, "reporter& reporter::operator=(const reporter&)"⟩,
    (assignCopy_ok_iff sampleEnv 1 2 wrapState2 _).2
      ⟨rfl, ⟨0, 1, 100⟩, ⟨0, 65536, 200⟩, 65536, rfl, rfl, by decide, rfl, by decide,
        ⟨1, rfl⟩, rfl⟩,
    rfl, rfl, rfl, rfl⟩,
   ⟨_, ⟨7, 9, 0, 200, 1, "reporter& reporter::operator=(const reporter&)"⟩,
    (assignCopy_ok_iff sampleEnv 2 1 wrapState2 _).2
      ⟨rfl, ⟨0, 65536, 200⟩, ⟨0, 1, 100⟩, 1, rfl, rfl, by decide, rfl, by decide,
        ⟨65536, rfl⟩, rfl⟩,
    rfl, rfl, rfl, rfl⟩⟩

/-- C8 (amended): copy assignment of a valid `h` from a valid `o` returns; the cell
of `h` then holds the value of `o`; no object, the counter and the set of
allocated cells do not change, nor does any other cell; `o` still holds its
value; exactly one line is written, to the stream of `h`, and it shows the id
of `h` modulo 65536, the unchanged address of `h` and the newly stored value
modulo 65536. -/
theorem C8_copy_assignment (env : Env) (s : State) (h o : Nat) (A B : Reporter) (w v : Nat)
    (hl : s.locked = false) (hself : Valid s h A w) (hsrc : Valid s o B v) :
    ∃ s1 l, assignCopy env h o s = Res.ok () s1 ∧
      s1.heap A._ptr = some v ∧
      s1.objs = s.objs ∧
      s1.counter = s.counter ∧
      (∀ c, (s1.heap c).isSome = (s.heap c).isSome) ∧
      (∀ c, c ≠ A._ptr → s1.heap c = s.heap c) ∧
      Valid s1 h A v ∧ Valid s1 o B v ∧
      s1.locked = false ∧
      s1.streams A._stream = s.streams A._stream ++ [l] ∧
      (∀ k, k ≠ A._stream → s1.streams k = s.streams k) ∧
      l.id = A._id % ushortMod ∧
      l.ptr = A._ptr ∧
      l.value = v % ushortMod ∧
      l.text = "reporter& reporter::operator=(const reporter&)" ∧
      (A._id < ushortMod → l.id = A._id) ∧
      (v < ushortMod → l.value = v) := by
  obtain ⟨hA, hp, hw⟩ := hself
  obtain ⟨hB, hq, hv⟩ := hsrc
  refine ⟨_, lineOf env A._id A._ptr v "reporter& reporter::operator=(const reporter&)",
    (assignCopy_ok_iff env h o s _).2 ⟨hl, A, B, v, hA, hB, hq, hv, hp, ⟨w, hw⟩, rfl⟩,
    ?_, rfl, rfl, ?_, ?_, ⟨hA, hp, ?_⟩, ⟨hB, hq, ?_⟩, rfl, ?_, ?_, rfl, rfl, rfl, rfl,
    fun hh => Nat.mod_eq_of_lt hh, fun hh => Nat.mod_eq_of_lt hh⟩
  · simp
  · intro c
    by_cases hc : c = A._ptr
    · subst hc; simp [hw]
    · simp [hc]
  · intro c hc; simp [hc]
  · simp
  · by_cases hc : B._ptr = A._ptr
    · rw [hc]; simp
    · simp [hc, hv]
  · simp
  · intro k hk; simp [hk]

/-- C8 (amended) at `sampleState`: copy assignment of object 1 from object 2. -/
theorem C8_copy_assignment_witness :
    sampleState.locked = false ∧ Valid sampleState 1 ⟨0, 1, 100⟩ 1 ∧
    Valid sampleState 2 ⟨0, 2, 200⟩ 2 ∧
    ∃ (s1 : State) (l : Line), assignCopy sampleEnv 1 2 sampleState = Res.ok () s1 ∧
      s1.heap 100 = some 2 ∧ l.id = 1 ∧ l.ptr = 100 ∧ l.value = 2 := by
  refine ⟨rfl, ⟨rfl, by decide, rfl⟩, ⟨rfl, by decide, rfl⟩, ?_⟩
  obtain ⟨s1, l, h1, h2, -, -, -, -, -, -, -, -, -, h12, h13, h14, -⟩ :=
    C8_copy_assignment sampleEnv sampleState 1 2 ⟨0, 1, 100⟩ ⟨0, 2, 200⟩ 1 2 rfl
      ⟨rfl, by decide, rfl⟩ ⟨rfl, by decide, rfl⟩
  exact ⟨s1, l, h1, h2, h12, h13, h14⟩

/-- The counterexample to C9 as stated: move assignment of object 1 of
`wrapState2` from object 2 stores 65536 in the cell of object 1, and the line
it writes shows the value 0; move assignment of object 2, whose id is 65536,
from object 1 writes a line that shows the id 0. -/
theorem C9_counterexample :
    (∃ s1 l, assignMove sampleEnv 1 2 wrapState2 = Res.ok () s1 ∧
      s1.heap 100 = some 65536 ∧ s1.streams 0 = [l] ∧ l.ptr = 100 ∧ l.value = 0) ∧
    (∃ s1 l, assignMove sampleEnv 2 1 wrapState2 = Res.ok () s1 ∧
      s1.objs 2 = some ⟨0, 65536, 200⟩ ∧ s1.streams 0 = [l] ∧ l.ptr = 200 ∧ l.id = 0) :=
  ⟨⟨_, ⟨7, 9, 1, 100, 0, "reporter& reporter::operator=(reporter&&)"⟩,
    (assignMove_ok_iff sampleEnv 1 2 wrapState2 _).2
      ⟨rfl, ⟨0, 1, 100⟩, ⟨0, 65536, 200⟩, 65536, rfl, rfl, by decide, rfl, by decide,
        ⟨1, rfl⟩, rfl⟩,
    rfl, rfl, rfl, rfl⟩,
   ⟨_, ⟨7, 9, 0, 200, 1, "reporter& reporter::operator=(reporter&&)"⟩,
    (assignMove_ok_iff sampleEnv 2 1 wrapState2 _).2
      ⟨rfl, ⟨0, 65536, 200⟩, ⟨0, 1, 100⟩, 1, rfl, rfl, by decide, rfl, by decide,
        ⟨65536, rfl⟩, rfl⟩,
    rfl, rfl, rfl, rfl⟩⟩

/-- C9 (amended): in a state with exclusive ownership, move assignment of a valid
`h` from a different valid `o` returns; the cell of `h` then holds the value
of `o`; `h` keeps pointer and id; `o` keeps its id and its pointer becomes
null; the former cell of `o` is neither transferred nor freed: it stays
allocated with its value, no live object points to it, and that remains so
after every later run of operations; exactly one line is written, to the
stream of `h`, and it shows the id of `h` modulo 65536, the unchanged address
of `h` and the newly stored value modulo 65536. -/
theorem C9_move_assignment (env : Env) (s : State) (h o : Nat) (A B : Reporter) (w v : Nat)
    (hO : Owned s) (hne : h ≠ o) (hself : Valid s h A w) (hsrc : Valid s o B v) :
    ∃ s1 l, assignMove env h o s = Res.ok () s1 ∧
      s1.heap A._ptr = some v ∧
      s1.objs h = some A ∧
      s1.objs o = some ⟨B._stream, B._id, 0⟩ ∧
      (∀ k, k ≠ o → s1.objs k = s.objs k) ∧
      s1.counter = s.counter ∧
      (∀ c, c ≠ A._ptr → s1.heap c = s.heap c) ∧
      Leaked s1 B._ptr v ∧
      (∀ ops s2, Steps env s1 ops s2 → Leaked s2 B._ptr v) ∧
      s1.locked = false ∧
      s1.streams A._stream = s.streams A._stream ++ [l] ∧
      (∀ k, k ≠ A._stream → s1.streams k = s.streams k) ∧
      l.id = A._id % ushortMod ∧
      l.ptr = A._ptr ∧
      l.value = v % ushortMod ∧
      l.text = "reporter& reporter::operator=(reporter&&)" ∧
      (A._id < ushortMod → l.id = A._id) ∧
      (v < ushortMod → l.value = v) := by
  obtain ⟨hA, hp, hw⟩ := hself
  obtain ⟨hB, hq, hv⟩ := hsrc
  have hpq : B._ptr ≠ A._ptr := fun e => hne (hO.exclusive o h B A hB hA hq e).symm
  have hL : Leaked
      { counter := s.counter, locked := false,
        heap := Function.update s.heap A._ptr (some v),
        objs := Function.update s.objs o (some ⟨B._stream, B._id, 0⟩),
        streams := Function.update s.streams A._stream (s.streams A._stream ++
          [lineOf env A._id (if o = h then 0 else A._ptr) (if o = h then 0 else v)
            "reporter& reporter::operator=(reporter&&)"]) } B._ptr v := by
    refine ⟨hq, by simp [hpq, hv], ?_⟩
    intro k r hk
    simp only [Function.update_apply] at hk
    split_ifs at hk with hko
    · cases hk; exact hq.symm
    · intro e
      have hr0 : r._ptr ≠ 0 := by rw [e]; exact hq
      exact hko (hO.exclusive k o r B hk hB hr0 e)
  refine ⟨_, lineOf env A._id A._ptr v "reporter& reporter::operator=(reporter&&)",
    (assignMove_ok_iff env h o s _).2 ⟨hO.unlocked, A, B, v, hA, hB, hq, hv, hp, ⟨w, hw⟩, rfl⟩,
    ?_, ?_, ?_, ?_, rfl, ?_, hL, fun ops s2 hs => steps_leaked env _ ops s2 _ _ hs hL, rfl,
    ?_, ?_, rfl, rfl, rfl, rfl, fun hh => Nat.mod_eq_of_lt hh, fun hh => Nat.mod_eq_of_lt hh⟩
  · simp
  · simp [hne, hA]
  · simp
  · intro k hk; simp [hk]
  · intro c hc; simp [hc]
  · simp [Ne.symm hne, lineOf]
  · intro k hk; simp [hk]

/-- C9 (amended) at `sampleState`: move assignment of object 1 from object 2
leaks the cell 200. -/
theorem C9_move_assignment_witness :
    Owned sampleState ∧ 1 ≠ 2 ∧ Valid sampleState 1 ⟨0, 1, 100⟩ 1 ∧
    Valid sampleState 2 ⟨0, 2, 200⟩ 2 ∧
    ∃ (s1 : State) (l : Line), assignMove sampleEnv 1 2 sampleState = Res.ok () s1 ∧
      s1.heap 100 = some 2 ∧ s1.objs 2 = some ⟨0, 2, 0⟩ ∧ Leaked s1 200 2 ∧
      l.id = 1 ∧ l.ptr = 100 ∧ l.value = 2 := by
  refine ⟨sample_owned, by decide, ⟨rfl, by decide, rfl⟩, ⟨rfl, by decide, rfl⟩, ?_⟩
  obtain ⟨s1, l, h1, h2, -, h4, -, -, -, h8, -, -, -, -, h13, h14, h15, -⟩ :=
    C9_move_assignment sampleEnv sampleState 1 2 ⟨0, 1, 100⟩ ⟨0, 2, 200⟩ 1 2 sample_owned
      (by decide) ⟨rfl, by decide, rfl⟩ ⟨rfl, by decide, rfl⟩
  exact ⟨s1, l, h1, h2, h4, h8, h13, h14, h15⟩

/-- C11 fails on the code: a default construction whose allocation throws
`std::bad_alloc`, a copy construction whose allocation throws, and a copy
construction from an invalidated object are all entered with the mutex free
and all leave it held; after the first of them no operation returns any more. -/
theorem C11_lock_held_after_failure :
    (State.init.locked = false ∧
      ∃ s1, ctorDefault sampleEnv 1 0 State.init = Res.fault Fault.badAlloc s1 ∧
        s1.locked = true ∧ ∀ op s2, exec sampleEnv op s1 ≠ Res.ok () s2) ∧
    (sampleState.locked = false ∧
      ∃ s1, ctorCopy sampleEnv 3 1 0 sampleState = Res.fault Fault.badAlloc s1 ∧
        s1.locked = true) ∧
    (movedState.locked = false ∧
      ∃ s1, ctorCopy sampleEnv 4 1 400 movedState = Res.fault Fault.nullDeref s1 ∧
        s1.locked = true) := by
  refine ⟨⟨rfl, _, ctorDefault_badAlloc sampleEnv 1 State.init rfl rfl, rfl, ?_⟩,
    ⟨rfl, _, ctorCopy_badAlloc sampleEnv 3 1 sampleState ⟨0, 1, 100⟩ rfl rfl rfl,
      rfl⟩,
    ⟨rfl, _, ctorCopy_null sampleEnv 4 1 400 movedState ⟨0, 1, 0⟩ rfl rfl rfl rfl (by decide),
      rfl⟩⟩
  intro op s2 h
  have := exec_entry_unlocked sampleEnv op _ s2 h
  cases this

/-- C12: the characters of every line are, in this order, `[`, the type hash in
decimal digits, `, `, the thread hash in decimal digits, `, `, the id in
decimal digits, `, 0x`, the address in hexadecimal digits, `, `, the value in
decimal digits, `]: `, the text of the operation and the line terminator;
the record before the text is at most 50 characters long, so the buffer of
127 characters holds all of it; and every operation that returns writes such
a line, with its own text. -/
theorem C12_line_format :
    (∀ l : Line,
      l.render = String.mk (['['] ++ fmt05hu l.hash ++ [',', ' '] ++ fmt05hu l.thread ++
        [',', ' '] ++ fmt05hu l.id ++ [',', ' ', '0', 'x'] ++ fmt08llX l.ptr ++ [',', ' '] ++
        fmt05hu l.value ++ [']', ':', ' '] ++ l.text.toList ++ ['\n']) ∧
      (∀ c ∈ fmt05hu l.hash, c.isDigit = true) ∧ (∀ c ∈ fmt05hu l.thread, c.isDigit = true) ∧
      (∀ c ∈ fmt05hu l.id, c.isDigit = true) ∧ (∀ c ∈ fmt08llX l.ptr, c ∈ hexChars) ∧
      (∀ c ∈ fmt05hu l.value, c.isDigit = true) ∧
      (formatRecord l).length ≤ 50 ∧ (formatRecord l).length < bufferSize ∧
      l.buffer = formatRecord l) ∧
    (∀ env op s s1, exec env op s = Res.ok () s1 →
      ∃ st l, s1.streams st = s.streams st ++ [l] ∧ l.text = op.text ∧
        l.hash = env.typeHash % ushortMod ∧ l.thread = env.threadHash % ushortMod) := by
  refine ⟨fun l => ⟨?_, (fmt05hu_spec _).2.1, (fmt05hu_spec _).2.1, (fmt05hu_spec _).2.1,
    (fmt08llX_spec _).2.2.2.2, (fmt05hu_spec _).2.1, ?_, ?_, buffer_eq l⟩, ?_⟩
  · simp [Line.render, buffer_eq, formatRecord]
  · rw [formatRecord_length]
    have := (fmt08llX_spec l.ptr).2.1
    omega
  · rw [formatRecord_length]
    have := (fmt08llX_spec l.ptr).2.1
    have h2 : bufferSize = 127 := rfl
    omega
  · intro env op s s1 h
    obtain ⟨r, -, hs⟩ := exec_line env op s s1 h
    exact ⟨r._stream, lineOf env r._id r._ptr (peek (logState op s s1) r._ptr) op.text,
      by rw [hs]; simp, rfl, rfl, rfl⟩

/-- C12 on the construction `reporter<> r1;` at the start of the program, with the
type hash 7 and the thread hash 9: the characters of its line. -/
theorem C12_line_format_witness :
    exec sampleEnv (Op.ctorDefault 1 100) State.init = Res.ok () sampleState1 ∧
    sampleState1.streams 0 = [⟨7, 9, 1, 100, 1, "reporter::reporter()"⟩] ∧
    Line.render ⟨7, 9, 1, 100, 1, "reporter::reporter()"⟩ =
      "[00007, 00009, 00001, 0x00000064, 00001]: reporter::reporter()\n" ∧
    (formatRecord ⟨7, 9, 1, 100, 1, "reporter::reporter()"⟩).length ≤ 50 ∧
    ∃ (st : Nat) (l : Line), sampleState1.streams st = State.init.streams st ++ [l] ∧
      l.text = "reporter::reporter()" :=
  ⟨sample_exec1, rfl, by decide,
    (C12_line_format.1 ⟨7, 9, 1, 100, 1, "reporter::reporter()"⟩).2.2.2.2.2.2.1,
    by
      obtain ⟨st, l, h1, h2, -⟩ :=
        C12_line_format.2 sampleEnv (Op.ctorDefault 1 100) State.init sampleState1 sample_exec1
      exact ⟨st, l, h1, h2⟩⟩

/-- The counterexample to C13 as stated: the line of a default construction whose
cell has the address 2^32 shows the address with 9 hexadecimal digits and its
record is 43 characters long, while the record of the construction with the
cell 100 is 42 characters long. -/
theorem C13_counterexample :
    ∃ s1 l l0, exec sampleEnv (Op.ctorDefault 1 4294967296) State.init = Res.ok () s1 ∧
      s1.streams 0 = [l] ∧
      fmt08llX l.ptr = ['1', '0', '0', '0', '0', '0', '0', '0', '0'] ∧
      (formatRecord l).length = 43 ∧
      exec sampleEnv (Op.ctorDefault 1 100) State.init = Res.ok () sampleState1 ∧
      sampleState1.streams 0 = [l0] ∧
      fmt08llX l0.ptr = ['0', '0', '0', '0', '0', '0', '6', '4'] ∧
      (formatRecord l0).length = 42 :=
  ⟨_, ⟨7, 9, 1, 4294967296, 1, "reporter::reporter()"⟩, ⟨7, 9, 1, 100, 1, "reporter::reporter()"⟩,
    (ctorDefault_ok_iff sampleEnv 1 4294967296 State.init _).2 ⟨rfl, rfl, by decide, rfl⟩,
    rfl, by decide, by decide, sample_exec1, rfl, by decide, by decide⟩

/-- C13 (amended): in the record of every line the type hash, the thread hash, the
id and the value occupy exactly 5 decimal digits each; the address occupies
at least 8 and at most 16 hexadecimal digits, exactly 8 when it is below 2^32
and more otherwise; so the record before the text is 34 characters longer
than the address field, between 42 and 50 characters, and 42 characters for
every line whose address is below 2^32. -/
theorem C13_field_widths (l : Line) :
    (fmt05hu l.hash).length = 5 ∧ (fmt05hu l.thread).length = 5 ∧
    (fmt05hu l.id).length = 5 ∧ (fmt05hu l.value).length = 5 ∧
    8 ≤ (fmt08llX l.ptr).length ∧ (fmt08llX l.ptr).length ≤ 16 ∧
    ((fmt08llX l.ptr).length = 8 ↔ l.ptr % ullongMod < 2 ^ 32) ∧
    (formatRecord l).length = 34 + (fmt08llX l.ptr).length ∧
    42 ≤ (formatRecord l).length ∧ (formatRecord l).length ≤ 50 ∧
    ((formatRecord l).length = 42 ↔ l.ptr % ullongMod < 2 ^ 32) := by
  obtain ⟨h8, h16, hlt, hge, -⟩ := fmt08llX_spec l.ptr
  have hiff : (fmt08llX l.ptr).length = 8 ↔ l.ptr % ullongMod < 2 ^ 32 := by
    constructor
    · intro h
      by_contra hc
      have := hge (by omega)
      omega
    · exact hlt
  refine ⟨(fmt05hu_spec _).1, (fmt05hu_spec _).1, (fmt05hu_spec _).1, (fmt05hu_spec _).1,
    h8, h16, hiff, formatRecord_length l, ?_, ?_, ?_⟩
  · rw [formatRecord_length]; omega
  · rw [formatRecord_length]; omega
  · rw [formatRecord_length, ← hiff]; omega

/-- The counterexample to C14 as stated: invoking object 2 of `wrapState2`, whose
id is 65536 and which holds 65536, writes a line whose id field and value
field are both `00000`; and after object 3 is move-constructed from it with
the id 65537, the line of that construction and the line of invoking object
1, whose id is 1, carry the same id field `00001`. -/
theorem C14_counterexample :
    (∃ s1 l, invoke sampleEnv 2 Call.lref wrapState2 = Res.ok () s1 ∧
      wrapState2.objs 2 = some ⟨0, 65536, 200⟩ ∧ wrapState2.heap 200 = some 65536 ∧
      s1.streams 0 = [l] ∧
      fmt05hu l.id = ['0', '0', '0', '0', '0'] ∧ decValue (fmt05hu l.id) = 0 ∧
      fmt05hu l.value = ['0', '0', '0', '0', '0'] ∧ decValue (fmt05hu l.value) = 0) ∧
    (∃ s1 s2 l1 l2, ctorMove sampleEnv 3 2 wrapState2 = Res.ok () s1 ∧
      s1.objs 3 = some ⟨0, 65537, 200⟩ ∧ s1.objs 1 = some ⟨0, 1, 100⟩ ∧
      invoke sampleEnv 1 Call.lref s1 = Res.ok () s2 ∧
      s2.streams 0 = [l1, l2] ∧
      fmt05hu l1.id = ['0', '0', '0', '0', '1'] ∧ fmt05hu l2.id = ['0', '0', '0', '0', '1']) :=
  ⟨⟨_, ⟨7, 9, 0, 200, 0, "void reporter::operator()() &"⟩,
      (invoke_ok_iff sampleEnv 2 Call.lref wrapState2 _).2
        ⟨rfl, ⟨0, 65536, 200⟩, rfl, Or.inr ⟨65536, rfl⟩, rfl⟩,
      rfl, rfl, rfl, by decide, by decide, by decide, by decide⟩,
    ⟨_, _, ⟨7, 9, 1, 200, 0, "reporter::reporter(reporter&&)"⟩,
      ⟨7, 9, 1, 100, 1, "void reporter::operator()() &"⟩,
      (ctorMove_ok_iff sampleEnv 3 2 wrapState2 _).2
        ⟨rfl, rfl, ⟨0, 65536, 200⟩, rfl, Or.inr ⟨65536, rfl⟩, rfl⟩,
      rfl, rfl,
      (invoke_ok_iff sampleEnv 1 Call.lref _ _).2
        ⟨rfl, ⟨0, 1, 100⟩, rfl, Or.inr ⟨1, rfl⟩, rfl⟩,
      rfl, by decide, by decide⟩⟩

/-- C14 (amended): the line of every operation that returns shows its acting
object at the moment of logging: the id field is the five-digit decimal
numeral of the id modulo 65536 and the value field is the five-digit decimal
numeral of the value held modulo 65536 (of 0 when the pointer is null);
consequently two lines for ids that differ modulo 65536, in particular for
different ids below 65536, carry different id fields. -/
theorem C14_id_and_value_fields :
    (∀ env op s s1, exec env op s = Res.ok () s1 →
      ∃ r l, actor op s s1 = some r ∧
        s1.streams r._stream = s.streams r._stream ++ [l] ∧
        (fmt05hu l.id).length = 5 ∧ decValue (fmt05hu l.id) = r._id % ushortMod ∧
        (fmt05hu l.value).length = 5 ∧
        decValue (fmt05hu l.value) = peek (logState op s s1) r._ptr % ushortMod ∧
        (r._ptr = 0 → decValue (fmt05hu l.value) = 0) ∧
        (r._id < ushortMod → decValue (fmt05hu l.id) = r._id)) ∧
    (∀ env1 env2 id1 id2 p1 p2 v1 v2 t1 t2, id1 % ushortMod ≠ id2 % ushortMod →
      fmt05hu (lineOf env1 id1 p1 v1 t1).id ≠ fmt05hu (lineOf env2 id2 p2 v2 t2).id) ∧
    (∀ env1 env2 id1 id2 p1 p2 v1 v2 t1 t2, id1 < ushortMod → id2 < ushortMod → id1 ≠ id2 →
      fmt05hu (lineOf env1 id1 p1 v1 t1).id ≠ fmt05hu (lineOf env2 id2 p2 v2 t2).id) := by
  have hmm : ∀ n, n % ushortMod % ushortMod = n % ushortMod := fun n => Nat.mod_mod _ _
  have hdiff : ∀ env1 env2 id1 id2 p1 p2 v1 v2 t1 t2, id1 % ushortMod ≠ id2 % ushortMod →
      fmt05hu (lineOf env1 id1 p1 v1 t1).id ≠ fmt05hu (lineOf env2 id2 p2 v2 t2).id := by
    intro env1 env2 id1 id2 p1 p2 v1 v2 t1 t2 hne heq
    have h1 := (fmt05hu_spec (lineOf env1 id1 p1 v1 t1).id).2.2
    have h2 := (fmt05hu_spec (lineOf env2 id2 p2 v2 t2).id).2.2
    rw [heq, h2] at h1
    simp only [lineOf, hmm] at h1
    exact hne h1.symm
  refine ⟨?_, hdiff, ?_⟩
  · intro env op s s1 h
    obtain ⟨r, hr, hs⟩ := exec_line env op s s1 h
    refine ⟨r, lineOf env r._id r._ptr (peek (logState op s s1) r._ptr) op.text, hr,
      by rw [hs]; simp, (fmt05hu_spec _).1, ?_, (fmt05hu_spec _).1, ?_, ?_, ?_⟩
    · rw [(fmt05hu_spec _).2.2]; simp [lineOf]
    · rw [(fmt05hu_spec _).2.2]; simp [lineOf]
    · intro hp
      rw [(fmt05hu_spec _).2.2]; simp [lineOf, peek, hp]
    · intro hlt
      rw [(fmt05hu_spec _).2.2]; simp only [lineOf, hmm]
      exact Nat.mod_eq_of_lt hlt
  · intro env1 env2 id1 id2 p1 p2 v1 v2 t1 t2 h1 h2 hne
    apply hdiff
    rw [Nat.mod_eq_of_lt h1, Nat.mod_eq_of_lt h2]
    exact hne

/-- C14 (amended) on the construction `reporter<> r1;` at the start of the program:
the line shows the id 1 and the value 1. -/
theorem C14_id_and_value_fields_witness :
    exec sampleEnv (Op.ctorDefault 1 100) State.init = Res.ok () sampleState1 ∧
    ∃ (r : Reporter) (l : Line), actor (Op.ctorDefault 1 100) State.init sampleState1 = some r ∧
      sampleState1.streams r._stream = State.init.streams r._stream ++ [l] ∧
      decValue (fmt05hu l.id) = r._id % ushortMod := by
  refine ⟨sample_exec1, ?_⟩
  obtain ⟨r, l, h1, h2, -, h4, -⟩ :=
    C14_id_and_value_fields.1 sampleEnv (Op.ctorDefault 1 100) State.init sampleState1 sample_exec1
  exact ⟨r, l, h1, h2, h4⟩

/-- C15: every operation that returns appends exactly one line, to the stream its
acting object is bound to, and leaves every other stream as it was; that
stream is `std::clog` for default construction, the given stream for
stream-bound construction, the stream of the source for copy and move
construction, and the stream of the object itself otherwise; so a run of n
operations from the start of the program leaves exactly n lines in total. -/
theorem C15_one_line_per_operation (env : Env) :
    (∀ op s s1, exec env op s = Res.ok () s1 →
      ∃ r l, actor op s s1 = some r ∧ op.stream s = some r._stream ∧
        s1.streams r._stream = s.streams r._stream ++ [l] ∧
        (∀ k, k ≠ r._stream → s1.streams k = s.streams k) ∧
        l.text = op.text) ∧
    (∀ h a s s1, exec env (Op.ctorDefault h a) s = Res.ok () s1 →
      ∃ r, s1.objs h = some r ∧ r._stream = 0 ∧
        (s1.streams 0).length = (s.streams 0).length + 1) ∧
    (∀ h st a s s1, exec env (Op.ctorStream h st a) s = Res.ok () s1 →
      ∃ r, s1.objs h = some r ∧ r._stream = st ∧
        (s1.streams st).length = (s.streams st).length + 1) ∧
    (∀ h o a s s1, exec env (Op.ctorCopy h o a) s = Res.ok () s1 →
      ∃ r A, s1.objs h = some r ∧ s.objs o = some A ∧ r._stream = A._stream ∧
        (s1.streams A._stream).length = (s.streams A._stream).length + 1) ∧
    (∀ h o s s1, exec env (Op.ctorMove h o) s = Res.ok () s1 →
      ∃ r A, s1.objs h = some r ∧ s.objs o = some A ∧ r._stream = A._stream ∧
        (s1.streams A._stream).length = (s.streams A._stream).length + 1) ∧
    (∀ ops s s2, run env ops s = Res.ok () s2 →
      (writtenStreams env ops s).length = ops.length ∧
      ∀ k, (s2.streams k).length =
        (s.streams k).length + (writtenStreams env ops s).count k) ∧
    (∀ ops s2, run env ops State.init = Res.ok () s2 →
      (∑ k in (writtenStreams env ops State.init).toFinset, (s2.streams k).length)
        = ops.length ∧
      ∀ k, k ∉ (writtenStreams env ops State.init).toFinset → s2.streams k = []) := by
  have hone : ∀ op s s1, exec env op s = Res.ok () s1 →
      ∃ r l, actor op s s1 = some r ∧ op.stream s = some r._stream ∧
        s1.streams r._stream = s.streams r._stream ++ [l] ∧
        (∀ k, k ≠ r._stream → s1.streams k = s.streams k) ∧
        l.text = op.text := by
    intro op s s1 h
    obtain ⟨r, hr, hs⟩ := exec_line env op s s1 h
    exact ⟨r, lineOf env r._id r._ptr (peek (logState op s s1) r._ptr) op.text, hr,
      exec_stream env op s s1 h r hr, by rw [hs]; simp, fun k hk => by rw [hs]; simp [hk], rfl⟩
  refine ⟨hone, ?_, ?_, ?_, ?_, fun ops s s2 h => run_lines env ops s s2 h, ?_⟩
  · intro h a s s1 he
    obtain ⟨r, l, hr, hst, hl, -, -⟩ := hone _ s s1 he
    have h0 : r._stream = 0 := by simpa [Op.stream] using hst.symm
    refine ⟨r, by simpa [actor, Op.isDtor, Op.self] using hr, h0, ?_⟩
    rw [h0] at hl; rw [hl]; simp
  · intro h st a s s1 he
    obtain ⟨r, l, hr, hst, hl, -, -⟩ := hone _ s s1 he
    have h0 : r._stream = st := by simpa [Op.stream] using hst.symm
    refine ⟨r, by simpa [actor, Op.isDtor, Op.self] using hr, h0, ?_⟩
    rw [h0] at hl; rw [hl]; simp
  · intro h o a s s1 he
    obtain ⟨r, l, hr, hst, hl, -, -⟩ := hone _ s s1 he
    obtain ⟨-, -, -, A, v, hA, -, -, -⟩ := (ctorCopy_ok_iff env h o a s s1).1 he
    have h0 : r._stream = A._stream := by simpa [Op.stream, hA] using hst.symm
    refine ⟨r, A, by simpa [actor, Op.isDtor, Op.self] using hr, hA, h0, ?_⟩
    rw [h0] at hl; rw [hl]; simp
  · intro h o s s1 he
    obtain ⟨r, l, hr, hst, hl, -, -⟩ := hone _ s s1 he
    obtain ⟨-, -, A, hA, -, -⟩ := (ctorMove_ok_iff env h o s s1).1 he
    have h0 : r._stream = A._stream := by simpa [Op.stream, hA] using hst.symm
    refine ⟨r, A, by simpa [actor, Op.isDtor, Op.self] using hr, hA, h0, ?_⟩
    rw [h0] at hl; rw [hl]; simp
  · intro ops s2 h
    obtain ⟨hlen, hcount⟩ := run_lines env ops State.init s2 h
    have hc : ∀ k, (s2.streams k).length = (writtenStreams env ops State.init).count k := by
      intro k; rw [hcount k]; simp [State.init]
    refine ⟨?_, ?_⟩
    · rw [Finset.sum_congr rfl (fun k _ => hc k), List.sum_toFinset_count_eq_length, hlen]
    · intro k hk
      have : (writtenStreams env ops State.init).count k = 0 :=
        List.count_eq_zero.2 (fun hm => hk (List.mem_toFinset.2 hm))
      have h0 := hc k
      rw [this] at h0
      exact List.length_eq_zero.1 h0

/-- C15 on the run `reporter<> r1; reporter<> r2;` from the start of the program:
two lines in total, both on `std::clog`. -/
theorem C15_one_line_per_operation_witness :
    run sampleEnv [Op.ctorDefault 1 100, Op.ctorDefault 2 200] State.init = Res.ok () sampleState ∧
    (writtenStreams sampleEnv [Op.ctorDefault 1 100, Op.ctorDefault 2 200] State.init).length = 2 ∧
    (sampleState.streams 0).length = (State.init.streams 0).length +
      (writtenStreams sampleEnv [Op.ctorDefault 1 100, Op.ctorDefault 2 200] State.init).count 0 :=
  ⟨sample_run,
    ((C15_one_line_per_operation sampleEnv).2.2.2.2.2.1 _ State.init sampleState sample_run).1,
    ((C15_one_line_per_operation sampleEnv).2.2.2.2.2.1 _ State.init sampleState sample_run).2 0⟩

/-- C16: every overload of `operator()`, with every argument list, on a live object
whose pointer is null or valid returns; it leaves the counter, the mutex,
every object and every cell as they were, and appends one line to the stream
of the object. -/
theorem C16_invocation_frame (env : Env) (s : State) (h : Nat) (A : Reporter)
    (hl : s.locked = false) (hA : s.objs h = some A) (hp : Readable s A._ptr) (c : Call) :
    ∃ s1 l, invoke env h c s = Res.ok () s1 ∧
      s1 = s.emit A._stream l ∧
      s1.counter = s.counter ∧ s1.locked = s.locked ∧ s1.objs = s.objs ∧ s1.heap = s.heap ∧
      s1.streams A._stream = s.streams A._stream ++ [l] ∧
      (∀ k, k ≠ A._stream → s1.streams k = s.streams k) ∧
      l = lineOf env A._id A._ptr (peek s A._ptr) c.text := by
  refine ⟨_, lineOf env A._id A._ptr (peek s A._ptr) c.text,
    (invoke_ok_iff env h c s _).2 ⟨hl, A, hA, hp, rfl⟩, ?_, rfl, hl.symm, rfl, rfl, ?_, ?_, rfl⟩
  · simp [State.emit, hl]
  · simp
  · intro k hk; simp [hk]

/-- C16 at `movedState`: the template overload with three arguments on the
invalidated object 1, and the overload for const rvalues on the valid object 2. -/
theorem C16_invocation_frame_witness :
    movedState.locked = false ∧ movedState.objs 1 = some ⟨0, 1, 0⟩ ∧ Readable movedState 0 ∧
    movedState.objs 2 = some ⟨0, 2, 200⟩ ∧ Readable movedState 200 ∧
    (∃ s1 l, invoke sampleEnv 1 (Call.args [4, 5, 6]) movedState = Res.ok () s1 ∧
      s1 = movedState.emit 0 l) ∧
    (∃ s1 l, invoke sampleEnv 2 Call.constRref movedState = Res.ok () s1 ∧
      s1 = movedState.emit 0 l) := by
  refine ⟨rfl, rfl, Or.inl rfl, rfl, Or.inr ⟨2, rfl⟩, ?_, ?_⟩
  · obtain ⟨s1, l, h1, h2, -⟩ := C16_invocation_frame sampleEnv movedState 1 ⟨0, 1, 0⟩ rfl rfl
      (Or.inl rfl) (Call.args [4, 5, 6])
    exact ⟨s1, l, h1, h2⟩
  · obtain ⟨s1, l, h1, h2, -⟩ := C16_invocation_frame sampleEnv movedState 2 ⟨0, 2, 200⟩ rfl rfl
      (Or.inr ⟨2, rfl⟩) Call.constRref
    exact ⟨s1, l, h1, h2⟩

/-- C17: the nineteen texts are pairwise distinct; every operation hands `_log`
the text at its own position among them, and the line it writes carries that
text; so two operations write the same text exactly when they are the same
one of the nineteen operations. -/
theorem C17_tags_distinct :
    operationTags.length = 19 ∧ operationTags.Nodup ∧
    (∀ op : Op, op.index < 19 ∧ operationTags[op.index]? = some op.text) ∧
    (∀ op1 op2 : Op, op1.text = op2.text ↔ op1.index = op2.index) ∧
    (∀ env op s s1, exec env op s = Res.ok () s1 →
      ∃ st l, s1.streams st = s.streams st ++ [l] ∧
        operationTags[op.index]? = some l.text) := by
  refine ⟨rfl, operationTags_nodup, op_text_index, ?_, ?_⟩
  · intro op1 op2
    obtain ⟨h1, e1⟩ := op_text_index op1
    obtain ⟨h2, e2⟩ := op_text_index op2
    constructor
    · intro h
      rw [h] at e1
      have hl1 : op1.index < operationTags.length := h1
      have hl2 : op2.index < operationTags.length := h2
      rw [List.getElem?_eq_getElem hl1] at e1
      rw [List.getElem?_eq_getElem hl2] at e2
      have := (List.Nodup.getElem_inj_iff operationTags_nodup).1
        ((Option.some.inj e1).trans (Option.some.inj e2).symm)
      exact this
    · intro h
      rw [h] at e1
      rw [e1] at e2
      exact Option.some.inj e2
  · intro env op s s1 h
    obtain ⟨r, -, hs⟩ := exec_line env op s s1 h
    exact ⟨r._stream, lineOf env r._id r._ptr (peek (logState op s s1) r._ptr) op.text,
      by rw [hs]; simp, (op_text_index op).2⟩

/-- C17 on the construction `reporter<> r1;` at the start of the program: the line
carries the first of the nineteen texts. -/
theorem C17_tags_distinct_witness :
    exec sampleEnv (Op.ctorDefault 1 100) State.init = Res.ok () sampleState1 ∧
    ∃ (st : Nat) (l : Line), sampleState1.streams st = State.init.streams st ++ [l] ∧
      operationTags[0]? = some l.text :=
  ⟨sample_exec1, C17_tags_distinct.2.2.2.2 sampleEnv (Op.ctorDefault 1 100) State.init
    sampleState1 sample_exec1⟩

/-- C18: from the start of the program, with fresh cells from `new`, the driver
returns and leaves exactly 15 lines, all on `std::clog`: the five
construction lines carry the ids 1, 2, 3, 4, 5 and the values 1, 1, 1, 1, 5,
and the line of `r4` the address `r1` was constructed with; the invocation
lines follow, that of `r1` with id 1, address 0 and value 0; the destruction
lines of `r5`, `r4`, `r3`, `r2` show the values 5, 1, 1, 1, and that of `r1`
shows id 1, address 0 and value 0. -/
theorem C18_driver_lines (env : Env) (a1 a2 a3 a5 : Nat)
    (h1 : a1 ≠ 0) (h2 : a2 ≠ 0) (h3 : a3 ≠ 0) (h5 : a5 ≠ 0)
    (h12 : a1 ≠ a2) (h13 : a1 ≠ a3) (h15 : a1 ≠ a5) (h23 : a2 ≠ a3) (h25 : a2 ≠ a5)
    (h35 : a3 ≠ a5) :
    ∃ s2 : State, run env (mainOps a1 a2 a3 a5) State.init = Res.ok () s2 ∧
      (s2.streams 0).length = 15 ∧
      (∀ k, k ≠ 0 → s2.streams k = []) ∧
      s2.streams 0 =
        [ ⟨env.typeHash % ushortMod, env.threadHash % ushortMod, 1, a1, 1, "reporter::reporter()"⟩,
          ⟨env.typeHash % ushortMod, env.threadHash % ushortMod, 2, a2, 1,
            "reporter::reporter(const reporter&)"⟩,
          ⟨env.typeHash % ushortMod, env.threadHash % ushortMod, 3, a3, 1,
            "reporter::reporter(const reporter&)"⟩,
          ⟨env.typeHash % ushortMod, env.threadHash % ushortMod, 4, a1, 1,
            "reporter::reporter(reporter&&)"⟩,
          ⟨env.typeHash % ushortMod, env.threadHash % ushortMod, 5, a5, 5, "reporter::reporter()"⟩,
          ⟨env.typeHash % ushortMod, env.threadHash % ushortMod, 1, 0, 0,
            "void reporter::operator()() &"⟩,
          ⟨env.typeHash % ushortMod, env.threadHash % ushortMod, 2, a2, 1,
            "void reporter::operator()() &"⟩,
          ⟨env.typeHash % ushortMod, env.threadHash % ushortMod, 3, a3, 1,
            "void reporter::operator()() &"⟩,
          ⟨env.typeHash % ushortMod, env.threadHash % ushortMod, 4, a1, 1,
            "void reporter::operator()() &"⟩,
          ⟨env.typeHash % ushortMod, env.threadHash % ushortMod, 5, a5, 5,
            "void reporter::operator()() &"⟩,
          ⟨env.typeHash % ushortMod, env.threadHash % ushortMod, 5, a5, 5, "reporter::~reporter()"⟩,
          ⟨env.typeHash % ushortMod, env.threadHash % ushortMod, 4, a1, 1, "reporter::~reporter()"⟩,
          ⟨env.typeHash % ushortMod, env.threadHash % ushortMod, 3, a3, 1, "reporter::~reporter()"⟩,
          ⟨env.typeHash % ushortMod, env.threadHash % ushortMod, 2, a2, 1, "reporter::~reporter()"⟩,
          ⟨env.typeHash % ushortMod, env.threadHash % ushortMod, 1, 0, 0,
            "reporter::~reporter()"⟩ ] := by
  obtain ⟨hok, hs, hk, -, -⟩ := main_run env a1 a2 a3 a5 h1 h2 h3 h5 h12 h13 h15 h23 h25 h35
  refine ⟨_, res_eq_ok_state _ hok, by rw [hs]; rfl, hk, ?_⟩
  rw [hs]
  simp [lineOf, ushortMod]

/-- C18 with the cells 100, 200, 300 and 500. -/
theorem C18_driver_lines_witness :
    ∃ s2 : State, run sampleEnv (mainOps 100 200 300 500) State.init = Res.ok () s2 ∧
      (s2.streams 0).length = 15 ∧ (s2.streams 0)[3]? =
        some ⟨7, 9, 4, 100, 1, "reporter::reporter(reporter&&)"⟩ := by
  obtain ⟨s2, h1, h2, -, h4⟩ := C18_driver_lines sampleEnv 100 200 300 500 (by decide) (by decide)
    (by decide) (by decide) (by decide) (by decide) (by decide) (by decide) (by decide)
    (by decide)
  exact ⟨s2, h1, h2, by rw [h4]; rfl⟩

/-- C20: in a state with exclusive ownership, move assignment of a valid object
from itself returns and leaves it invalidated: its pointer is null, its id
unchanged, its former cell still allocated with its value and without an
owner, and the line shows address 0 and value 0; copy assignment of the
object from itself returns and leaves its pointer and its stored value as
they were. -/
theorem C20_self_assignment (env : Env) (s : State) (h : Nat) (A : Reporter) (v : Nat)
    (hO : Owned s) (hval : Valid s h A v) :
    (∃ s1 l, assignMove env h h s = Res.ok () s1 ∧
      s1.objs h = some ⟨A._stream, A._id, 0⟩ ∧
      (∀ k, k ≠ h → s1.objs k = s.objs k) ∧
      s1.heap = s.heap ∧ s1.heap A._ptr = some v ∧
      Leaked s1 A._ptr v ∧
      s1.streams A._stream = s.streams A._stream ++ [l] ∧
      l.ptr = 0 ∧ l.value = 0 ∧ l.id = A._id % ushortMod ∧
      l.text = "reporter& reporter::operator=(reporter&&)") ∧
    (∃ s1 l, assignCopy env h h s = Res.ok () s1 ∧
      s1.objs = s.objs ∧ s1.heap = s.heap ∧ Valid s1 h A v ∧
      s1.streams A._stream = s.streams A._stream ++ [l] ∧
      l.ptr = A._ptr ∧ l.value = v % ushortMod) := by
  obtain ⟨hA, hp, hv⟩ := hval
  have hheap : Function.update s.heap A._ptr (some v) = s.heap := by
    rw [← hv]; exact Function.update_eq_self A._ptr s.heap
  refine ⟨⟨_, lineOf env A._id 0 0 "reporter& reporter::operator=(reporter&&)",
      (assignMove_ok_iff env h h s _).2 ⟨hO.unlocked, A, A, v, hA, hA, hp, hv, hp, ⟨v, hv⟩, rfl⟩,
      ?_, ?_, ?_, ?_, ?_, ?_, rfl, rfl, rfl, rfl⟩,
    ⟨_, lineOf env A._id A._ptr v "reporter& reporter::operator=(const reporter&)",
      (assignCopy_ok_iff env h h s _).2 ⟨hO.unlocked, A, A, v, hA, hA, hp, hv, hp, ⟨v, hv⟩, rfl⟩,
      rfl, hheap, ⟨hA, hp, by simp⟩, ?_, rfl, rfl⟩⟩
  · simp
  · intro k hk; simp [hk]
  · exact hheap
  · simp
  · refine ⟨hp, by simp, ?_⟩
    intro k r hk
    simp only [Function.update_apply] at hk
    split_ifs at hk with hkh
    · cases hk; exact hp.symm
    · intro e
      have hr0 : r._ptr ≠ 0 := by rw [e]; exact hp
      exact hkh (hO.exclusive k h r A hk hA hr0 e)
  · simp [lineOf]
  · simp

/-- C20 at `sampleState`: object 1 move-assigned from itself leaks the cell 100;
copy-assigned from itself it keeps the cell and the value 1. -/
theorem C20_self_assignment_witness :
    Owned sampleState ∧ Valid sampleState 1 ⟨0, 1, 100⟩ 1 ∧
    (∃ (s1 : State) (l : Line), assignMove sampleEnv 1 1 sampleState = Res.ok () s1 ∧
      s1.objs 1 = some ⟨0, 1, 0⟩ ∧ Leaked s1 100 1 ∧ l.ptr = 0 ∧ l.value = 0) ∧
    (∃ s1, assignCopy sampleEnv 1 1 sampleState = Res.ok () s1 ∧
      Valid s1 1 ⟨0, 1, 100⟩ 1) := by
  obtain ⟨⟨s1, l, h1, h2, -, -, -, h6, -, h8, h9, -⟩, ⟨t1, m, g1, -, -, g4, -⟩⟩ :=
    C20_self_assignment sampleEnv sampleState 1 ⟨0, 1, 100⟩ 1 sample_owned
      ⟨rfl, by decide, rfl⟩
  exact ⟨sample_owned, ⟨rfl, by decide, rfl⟩, ⟨s1, l, h1, h2, h6, h8, h9⟩, ⟨t1, g1, g4⟩⟩

end ReporterModel
